import Mathlib

/-!
Verification of the reconciliation core of `gke-managed-certs`
(`pkg/controller/sync/sync.go`).

The file shallowly embeds `syncImpl` as deterministic Lean functions.
Stateful collaborator calls are made explicit:

* the State Store (`pkg/controller/state`, not under `src/`) is modelled
  from the spec as a keyed map from `CertId` to `StateEntry`;
* the outcomes of the external collaborators (lister, name generator,
  `SslCertificateManager`, status update) are supplied by an `Env` record,
  one outcome per call site of a single reconciliation pass;
* every collaborator call is recorded, in order, in a trace of `Call`s.

Each function returns `(result, store after the pass, trace)`.
-/

/-- Identity of a ManagedCertificate: `types.CertId` (namespace, name). -/
structure CertId where
  ns : String
  name : String
deriving DecidableEq

/-- Modelled from the spec: the per-identity record of the State Store
(`pkg/controller/state`, not under `src/`): the assigned SslCertificate
name and the three lifecycle flags. -/
structure StateEntry where
  sslCertificateName : String
  softDeleted : Bool
  excludedFromSLO : Bool
  sslCertificateCreationReported : Bool
deriving DecidableEq

/-- The declarative desired resource `apisv1beta2.ManagedCertificate`:
the core reads its domains and creation timestamp and writes its status. -/
structure ManagedCertificate where
  ns : String
  name : String
  domains : List String
  creationTimestamp : Nat
  status : String
deriving DecidableEq

/-- The external resource `compute.SslCertificate`. -/
structure SslCertificate where
  name : String
  domains : List String
  status : String
deriving DecidableEq

/-- Error values that can flow through the pass.  `managedCertificateNotFound`
is the sentinel `errors.ErrManagedCertificateNotFound` (the NotTracked
signal), `sslCertificateOutOfSyncGotDeleted` is
`errors.ErrSslCertificateOutOfSyncGotDeleted`, `notFound` is an error for
which `http.IsNotFound` holds, and `backend k` is any other backend error. -/
inductive Err where
  | managedCertificateNotFound
  | sslCertificateOutOfSyncGotDeleted
  | notFound
  | backend (code : Nat)
deriving DecidableEq

/-- `http.IsNotFound` (`pkg/utils/http`): recognises the NotFound error. -/
def isNotFound : Err → Bool
  | .notFound => true
  | _ => false

/-- `http.IgnoreNotFound` (`pkg/utils/http`): maps a NotFound error to
success and passes every other outcome through. -/
def ignoreNotFound : Option Err → Option Err
  | none => none
  | some e => if isNotFound e then none else some e

/-- Modelled from the spec: the Drift Comparator `certificates.Equal`
(`pkg/controller/certificates`, not under `src/`) compares only the fields
that originate from desired intent, i.e. the domain lists. -/
def certificatesEqual (mcrt : ManagedCertificate) (sslCert : SslCertificate) : Bool :=
  mcrt.domains == sslCert.domains

/-- Modelled from the spec: `certificates.CopyStatus`
(`pkg/controller/certificates`, not under `src/`) writes the observed
provisioning status onto the desired resource without altering its spec. -/
def certificatesCopyStatus (sslCert : SslCertificate) (mcrt : ManagedCertificate) :
    ManagedCertificate :=
  { mcrt with status := sslCert.status }

/-- The State Store contents: a keyed map from identity to `StateEntry`. -/
def Store : Type := CertId → Option StateEntry

/-- The empty State Store. -/
def emptyStore : Store := fun _ => none

/-- Modelled from the spec: `state.GetSslCertificateName` fails with the
NotTracked sentinel when no entry exists, and otherwise returns the
recorded name. -/
def stateGetSslCertificateName (st : Store) (id : CertId) : Except Err String :=
  match st id with
  | some e => .ok e.sslCertificateName
  | none => .error .managedCertificateNotFound

/-- Modelled from the spec: `state.SetSslCertificateName` records the name,
creating a fresh entry (all flags cleared) when the identity is untracked. -/
def stateSetSslCertificateName (st : Store) (id : CertId) (n : String) : Store :=
  fun j =>
    if j = id then
      match st id with
      | some e => some { e with sslCertificateName := n }
      | none => some { sslCertificateName := n, softDeleted := false,
                       excludedFromSLO := false, sslCertificateCreationReported := false }
    else st j

/-- Modelled from the spec: `state.IsSoftDeleted`, NotTracked when absent. -/
def stateIsSoftDeleted (st : Store) (id : CertId) : Except Err Bool :=
  match st id with
  | some e => .ok e.softDeleted
  | none => .error .managedCertificateNotFound

/-- Modelled from the spec: `state.SetSoftDeleted` marks the entry,
failing with NotTracked when the identity has no entry. -/
def stateSetSoftDeleted (st : Store) (id : CertId) : Option Err × Store :=
  match st id with
  | some e => (none, fun j => if j = id then some { e with softDeleted := true } else st j)
  | none => (some .managedCertificateNotFound, st)

/-- Modelled from the spec: `state.IsExcludedFromSLO`, NotTracked when absent. -/
def stateIsExcludedFromSLO (st : Store) (id : CertId) : Except Err Bool :=
  match st id with
  | some e => .ok e.excludedFromSLO
  | none => .error .managedCertificateNotFound

/-- Modelled from the spec: `state.IsSslCertificateCreationReported`,
NotTracked when absent. -/
def stateIsSslCertificateCreationReported (st : Store) (id : CertId) : Except Err Bool :=
  match st id with
  | some e => .ok e.sslCertificateCreationReported
  | none => .error .managedCertificateNotFound

/-- Modelled from the spec: `state.SetSslCertificateCreationReported`,
failing with NotTracked when the identity has no entry. -/
def stateSetSslCertificateCreationReported (st : Store) (id : CertId) : Option Err × Store :=
  match st id with
  | some e =>
      (none, fun j =>
        if j = id then some { e with sslCertificateCreationReported := true } else st j)
  | none => (some .managedCertificateNotFound, st)

/-- Modelled from the spec: `state.Delete` removes the entry. -/
def stateDelete (st : Store) (id : CertId) : Store :=
  fun j => if j = id then none else st j

/-- One recorded collaborator call of a reconciliation pass. -/
inductive Call where
  | listerGet (id : CertId)
  | storeGetName (id : CertId)
  | storeSetName (id : CertId) (n : String)
  | storeIsSoftDeleted (id : CertId)
  | storeSetSoftDeleted (id : CertId)
  | storeIsExcluded (id : CertId)
  | storeIsReported (id : CertId)
  | storeSetReported (id : CertId)
  | storeDelete (id : CertId)
  | randomName
  | sslExists (n : String)
  | sslCreate (n : String)
  | sslGet (n : String)
  | sslDelete (n : String)
  | observeLatency (t : Nat)
  | clientUpdate (ns : String) (name : String)
deriving DecidableEq

/-- Outcomes of the external collaborators for one reconciliation pass,
one field per call site of `syncImpl.ManagedCertificate`. -/
structure Env where
  listerGetResult : Except Err ManagedCertificate
  randomNameResult : Except Err String
  sslExistsResult : Except Err Bool
  sslCreateResult : Option Err
  sslGetResult : Except Err SslCertificate
  sslDeleteResult : Option Err
  clientUpdateResult : Option Err

/-- Embeds `syncImpl.ensureSslCertificateName` (sync.go lines 68-81):
return the recorded name if the State Store lookup succeeds, otherwise
generate a fresh name, persist it and return it. -/
def ensureSslCertificateName (env : Env) (st : Store) (id : CertId) :
    Except Err String × Store × List Call :=
  match stateGetSslCertificateName st id with
  | .ok sslCertificateName => (.ok sslCertificateName, st, [.storeGetName id])
  | .error _ =>
    match env.randomNameResult with
    | .error e => (.error e, st, [.storeGetName id, .randomName])
    | .ok sslCertificateName =>
        (.ok sslCertificateName, stateSetSslCertificateName st id sslCertificateName,
          [.storeGetName id, .randomName, .storeSetName id sslCertificateName])

/-- Embeds `syncImpl.observeSslCertificateCreationLatencyIfNeeded`
(sync.go lines 83-112).  The `time.Parse` round-trip of the creation
timestamp is modelled as the timestamp itself. -/
def observeSslCertificateCreationLatencyIfNeeded (st : Store) (id : CertId)
    (mcrt : ManagedCertificate) : Option Err × Store × List Call :=
  match stateIsExcludedFromSLO st id with
  | .error e => (some e, st, [.storeIsExcluded id])
  | .ok true => (none, st, [.storeIsExcluded id])
  | .ok false =>
    match stateIsSslCertificateCreationReported st id with
    | .error e => (some e, st, [.storeIsExcluded id, .storeIsReported id])
    | .ok true => (none, st, [.storeIsExcluded id, .storeIsReported id])
    | .ok false =>
      let rs := stateSetSslCertificateCreationReported st id
      (rs.1, rs.2,
        [.storeIsExcluded id, .storeIsReported id,
         .observeLatency mcrt.creationTimestamp, .storeSetReported id])

/-- Embeds `syncImpl.deleteSslCertificate` (sync.go lines 114-130):
mark the entry soft deleted, delete the SslCertificate ignoring NotFound,
then remove the entry from the State Store. -/
def deleteSslCertificate (env : Env) (st : Store) (id : CertId)
    (sslCertificateName : String) : Option Err × Store × List Call :=
  match stateSetSoftDeleted st id with
  | (some e, st') => (some e, st', [.storeSetSoftDeleted id])
  | (none, st1) =>
    match ignoreNotFound env.sslDeleteResult with
    | some e => (some e, st1, [.storeSetSoftDeleted id, .sslDelete sslCertificateName])
    | none =>
        (none, stateDelete st1 id,
          [.storeSetSoftDeleted id, .sslDelete sslCertificateName, .storeDelete id])

/-- Embeds `syncImpl.ensureSslCertificate` (sync.go lines 132-165):
check existence, create and maybe observe the latency metric when absent,
fetch the resource, and on drift delete it and fail with the
out-of-sync sentinel. -/
def ensureSslCertificate (env : Env) (st : Store) (sslCertificateName : String)
    (id : CertId) (mcrt : ManagedCertificate) :
    Except Err SslCertificate × Store × List Call :=
  match env.sslExistsResult with
  | .error e => (.error e, st, [.sslExists sslCertificateName])
  | .ok b =>
    let createPart : Option Err × Store × List Call :=
      if b then (none, st, [.sslExists sslCertificateName])
      else
        match env.sslCreateResult with
        | some e => (some e, st, [.sslExists sslCertificateName, .sslCreate sslCertificateName])
        | none =>
          let ob := observeSslCertificateCreationLatencyIfNeeded st id mcrt
          (ob.1, ob.2.1,
            [.sslExists sslCertificateName, .sslCreate sslCertificateName] ++ ob.2.2)
    match createPart with
    | (some e, st1, tr1) => (.error e, st1, tr1)
    | (none, st1, tr1) =>
      match env.sslGetResult with
      | .error e => (.error e, st1, tr1 ++ [.sslGet sslCertificateName])
      | .ok sslCert =>
        if certificatesEqual mcrt sslCert then
          (.ok sslCert, st1, tr1 ++ [.sslGet sslCertificateName])
        else
          match deleteSslCertificate env st1 id sslCertificateName with
          | (some e, st2, tr2) =>
              (.error e, st2, (tr1 ++ [.sslGet sslCertificateName]) ++ tr2)
          | (none, st2, tr2) =>
              (.error .sslCertificateOutOfSyncGotDeleted, st2,
                (tr1 ++ [.sslGet sslCertificateName]) ++ tr2)

/-- Embeds `syncImpl.ManagedCertificate` (sync.go lines 167-208), one
reconciliation pass for identity `id`. -/
def syncManagedCertificate (env : Env) (st : Store) (id : CertId) :
    Option Err × Store × List Call :=
  match env.listerGetResult with
  | .error e =>
    if isNotFound e then
      match stateGetSslCertificateName st id with
      | .error e2 =>
        if e2 = .managedCertificateNotFound then (none, st, [.listerGet id, .storeGetName id])
        else (some e2, st, [.listerGet id, .storeGetName id])
      | .ok sslCertificateName =>
        match deleteSslCertificate env st id sslCertificateName with
        | (r, st', tr) => (r, st', [.listerGet id, .storeGetName id] ++ tr)
    else (some e, st, [.listerGet id])
  | .ok mcrt =>
    match ensureSslCertificateName env st id with
    | (.error e, st1, tr1) => (some e, st1, .listerGet id :: tr1)
    | (.ok sslCertificateName, st1, tr1) =>
      match stateIsSoftDeleted st1 id with
      | .error e => (some e, st1, (.listerGet id :: tr1) ++ [.storeIsSoftDeleted id])
      | .ok true =>
        match deleteSslCertificate env st1 id sslCertificateName with
        | (r, st2, tr2) =>
            (r, st2, ((.listerGet id :: tr1) ++ [.storeIsSoftDeleted id]) ++ tr2)
      | .ok false =>
        match ensureSslCertificate env st1 sslCertificateName id mcrt with
        | (.error e, st2, tr2) =>
            (some e, st2, ((.listerGet id :: tr1) ++ [.storeIsSoftDeleted id]) ++ tr2)
        | (.ok sslCert, st2, tr2) =>
          let mcrt2 := certificatesCopyStatus sslCert mcrt
          (env.clientUpdateResult, st2,
            (((.listerGet id :: tr1) ++ [.storeIsSoftDeleted id]) ++ tr2)
              ++ [.clientUpdate mcrt2.ns mcrt2.name])

/-- A sequence of reconciliation passes for one identity: the scheduler
re-invokes `Sync.ManagedCertificate` with fresh collaborator outcomes,
threading the State Store; traces are concatenated. -/
def syncPasses (envs : List Env) (st : Store) (id : CertId) : Store × List Call :=
  match envs with
  | [] => (st, [])
  | env :: rest =>
    let r := syncManagedCertificate env st id
    let rr := syncPasses rest r.2.1 id
    (rr.1, r.2.2 ++ rr.2)

/-! ### Concrete fixtures, used by the evaluation witnesses below. -/

/-- Concrete identity used by the witnesses. -/
def cid : CertId := { ns := "default", name := "mcrt1" }

/-- Concrete desired resource used by the witnesses. -/
def mcrt1 : ManagedCertificate :=
  { ns := "default", name := "mcrt1", domains := ["example.com"],
    creationTimestamp := 5, status := "" }

/-- Concrete external resource matching `mcrt1`. -/
def cert1 : SslCertificate :=
  { name := "mcert-abc123", domains := ["example.com"], status := "Active" }

/-- Concrete external resource that drifted from `mcrt1`. -/
def certDrift : SslCertificate :=
  { name := "mcert-abc123", domains := ["example.org"], status := "Active" }

/-- Collaborator outcomes of a fully successful first pass. -/
def envHappy : Env :=
  { listerGetResult := .ok mcrt1, randomNameResult := .ok "mcert-abc123",
    sslExistsResult := .ok false, sslCreateResult := none,
    sslGetResult := .ok cert1, sslDeleteResult := none, clientUpdateResult := none }

/-- A store tracking `cid` with name `mcert-abc123` and all flags cleared. -/
def stTracked : Store :=
  stateSetSslCertificateName emptyStore cid "mcert-abc123"

example :
    (syncManagedCertificate envHappy emptyStore cid).1 = none ∧
    (syncManagedCertificate envHappy emptyStore cid).2.2 =
      [.listerGet cid, .storeGetName cid, .randomName, .storeSetName cid "mcert-abc123",
       .storeIsSoftDeleted cid, .sslExists "mcert-abc123", .sslCreate "mcert-abc123",
       .storeIsExcluded cid, .storeIsReported cid, .observeLatency 5, .storeSetReported cid,
       .sslGet "mcert-abc123", .clientUpdate "default" "mcrt1"] := by
  constructor <;> rfl

example :
    (syncManagedCertificate envHappy emptyStore cid).2.1 cid =
      some { sslCertificateName := "mcert-abc123", softDeleted := false,
             excludedFromSLO := false, sslCertificateCreationReported := true } := by
  rfl

example :
    (syncManagedCertificate { envHappy with sslGetResult := .ok certDrift } stTracked cid).1 =
      some .sslCertificateOutOfSyncGotDeleted := by
  rfl

/-! ### Shape lemmas for the store operations and the embedded functions. -/

theorem getName_setName (st : Store) (id : CertId) (n : String) :
    stateGetSslCertificateName (stateSetSslCertificateName st id n) id = .ok n := by
  unfold stateGetSslCertificateName stateSetSslCertificateName
  cases st id <;> simp

theorem setName_fresh (st : Store) (id : CertId) (n : String) (h : st id = none) :
    (stateSetSslCertificateName st id n) id =
      some { sslCertificateName := n, softDeleted := false,
             excludedFromSLO := false, sslCertificateCreationReported := false } := by
  unfold stateSetSslCertificateName
  simp [h]

theorem ensureName_hit (env : Env) (st : Store) (id : CertId) (e : StateEntry)
    (h : st id = some e) :
    ensureSslCertificateName env st id = (.ok e.sslCertificateName, st, [.storeGetName id]) := by
  unfold ensureSslCertificateName stateGetSslCertificateName
  simp [h]

theorem ensureName_missErr (env : Env) (st : Store) (id : CertId) (er : Err)
    (h : st id = none) (hr : env.randomNameResult = .error er) :
    ensureSslCertificateName env st id = (.error er, st, [.storeGetName id, .randomName]) := by
  unfold ensureSslCertificateName stateGetSslCertificateName
  simp [h, hr]

theorem ensureName_missOk (env : Env) (st : Store) (id : CertId) (n : String)
    (h : st id = none) (hr : env.randomNameResult = .ok n) :
    ensureSslCertificateName env st id =
      (.ok n, stateSetSslCertificateName st id n,
        [.storeGetName id, .randomName, .storeSetName id n]) := by
  unfold ensureSslCertificateName stateGetSslCertificateName
  simp [h, hr]

theorem observe_excluded (st : Store) (id : CertId) (mcrt : ManagedCertificate)
    (e : StateEntry) (h : st id = some e) (he : e.excludedFromSLO = true) :
    observeSslCertificateCreationLatencyIfNeeded st id mcrt =
      (none, st, [.storeIsExcluded id]) := by
  unfold observeSslCertificateCreationLatencyIfNeeded stateIsExcludedFromSLO
  simp [h, he]

theorem observe_reported (st : Store) (id : CertId) (mcrt : ManagedCertificate)
    (e : StateEntry) (h : st id = some e) (he : e.excludedFromSLO = false)
    (hr : e.sslCertificateCreationReported = true) :
    observeSslCertificateCreationLatencyIfNeeded st id mcrt =
      (none, st, [.storeIsExcluded id, .storeIsReported id]) := by
  unfold observeSslCertificateCreationLatencyIfNeeded
  unfold stateIsExcludedFromSLO stateIsSslCertificateCreationReported
  simp [h, he, hr]

theorem observe_fresh (st : Store) (id : CertId) (mcrt : ManagedCertificate)
    (e : StateEntry) (h : st id = some e) (he : e.excludedFromSLO = false)
    (hr : e.sslCertificateCreationReported = false) :
    observeSslCertificateCreationLatencyIfNeeded st id mcrt =
      (none,
       fun j => if j = id then some { e with sslCertificateCreationReported := true }
                else st j,
       [.storeIsExcluded id, .storeIsReported id,
        .observeLatency mcrt.creationTimestamp, .storeSetReported id]) := by
  unfold observeSslCertificateCreationLatencyIfNeeded
  unfold stateIsExcludedFromSLO stateIsSslCertificateCreationReported
  unfold stateSetSslCertificateCreationReported
  simp [h, he, hr]

theorem delete_absent (env : Env) (st : Store) (id : CertId) (n : String)
    (h : st id = none) :
    deleteSslCertificate env st id n =
      (some .managedCertificateNotFound, st, [.storeSetSoftDeleted id]) := by
  unfold deleteSslCertificate stateSetSoftDeleted
  simp [h]

theorem delete_err (env : Env) (st : Store) (id : CertId) (n : String)
    (e : StateEntry) (d : Err) (h : st id = some e)
    (hd : env.sslDeleteResult = some d) (hnf : isNotFound d = false) :
    deleteSslCertificate env st id n =
      (some d,
       fun j => if j = id then some { e with softDeleted := true } else st j,
       [.storeSetSoftDeleted id, .sslDelete n]) := by
  unfold deleteSslCertificate stateSetSoftDeleted ignoreNotFound
  simp [h, hd, hnf]

theorem delete_ok (env : Env) (st : Store) (id : CertId) (n : String)
    (e : StateEntry) (h : st id = some e)
    (hd : ignoreNotFound env.sslDeleteResult = none) :
    deleteSslCertificate env st id n =
      (none,
       stateDelete (fun j => if j = id then some { e with softDeleted := true } else st j) id,
       [.storeSetSoftDeleted id, .sslDelete n, .storeDelete id]) := by
  unfold deleteSslCertificate stateSetSoftDeleted
  simp [h, hd]

theorem ens_existsErr (env : Env) (st : Store) (n : String) (id : CertId)
    (mcrt : ManagedCertificate) (e : Err) (h : env.sslExistsResult = .error e) :
    ensureSslCertificate env st n id mcrt = (.error e, st, [.sslExists n]) := by
  unfold ensureSslCertificate
  simp [h]

theorem ens_createErr (env : Env) (st : Store) (n : String) (id : CertId)
    (mcrt : ManagedCertificate) (e : Err) (hb : env.sslExistsResult = .ok false)
    (hc : env.sslCreateResult = some e) :
    ensureSslCertificate env st n id mcrt =
      (.error e, st, [.sslExists n, .sslCreate n]) := by
  unfold ensureSslCertificate
  simp [hb, hc]

theorem ens_true_getErr (env : Env) (st : Store) (n : String) (id : CertId)
    (mcrt : ManagedCertificate) (e : Err) (hb : env.sslExistsResult = .ok true)
    (hg : env.sslGetResult = .error e) :
    ensureSslCertificate env st n id mcrt =
      (.error e, st, [.sslExists n, .sslGet n]) := by
  unfold ensureSslCertificate
  simp [hb, hg]

theorem ens_true_equal (env : Env) (st : Store) (n : String) (id : CertId)
    (mcrt : ManagedCertificate) (c : SslCertificate) (hb : env.sslExistsResult = .ok true)
    (hg : env.sslGetResult = .ok c) (heq : certificatesEqual mcrt c = true) :
    ensureSslCertificate env st n id mcrt =
      (.ok c, st, [.sslExists n, .sslGet n]) := by
  unfold ensureSslCertificate
  simp [hb, hg, heq]

theorem ens_true_driftErr (env : Env) (st : Store) (n : String) (id : CertId)
    (mcrt : ManagedCertificate) (c : SslCertificate) (e : Err) (st2 : Store)
    (tr2 : List Call) (hb : env.sslExistsResult = .ok true)
    (hg : env.sslGetResult = .ok c) (heq : certificatesEqual mcrt c = false)
    (hd : deleteSslCertificate env st id n = (some e, st2, tr2)) :
    ensureSslCertificate env st n id mcrt =
      (.error e, st2, [.sslExists n, .sslGet n] ++ tr2) := by
  unfold ensureSslCertificate
  simp [hb, hg, heq, hd]

theorem ens_true_driftOk (env : Env) (st : Store) (n : String) (id : CertId)
    (mcrt : ManagedCertificate) (c : SslCertificate) (st2 : Store)
    (tr2 : List Call) (hb : env.sslExistsResult = .ok true)
    (hg : env.sslGetResult = .ok c) (heq : certificatesEqual mcrt c = false)
    (hd : deleteSslCertificate env st id n = (none, st2, tr2)) :
    ensureSslCertificate env st n id mcrt =
      (.error .sslCertificateOutOfSyncGotDeleted, st2,
        [.sslExists n, .sslGet n] ++ tr2) := by
  unfold ensureSslCertificate
  simp [hb, hg, heq, hd]

theorem ens_false_obsErr (env : Env) (st : Store) (n : String) (id : CertId)
    (mcrt : ManagedCertificate) (e : Err) (stO : Store) (trO : List Call)
    (hb : env.sslExistsResult = .ok false) (hc : env.sslCreateResult = none)
    (ho : observeSslCertificateCreationLatencyIfNeeded st id mcrt = (some e, stO, trO)) :
    ensureSslCertificate env st n id mcrt =
      (.error e, stO, [.sslExists n, .sslCreate n] ++ trO) := by
  unfold ensureSslCertificate
  simp [hb, hc, ho]

theorem ens_false_getErr (env : Env) (st : Store) (n : String) (id : CertId)
    (mcrt : ManagedCertificate) (e : Err) (stO : Store) (trO : List Call)
    (hb : env.sslExistsResult = .ok false) (hc : env.sslCreateResult = none)
    (ho : observeSslCertificateCreationLatencyIfNeeded st id mcrt = (none, stO, trO))
    (hg : env.sslGetResult = .error e) :
    ensureSslCertificate env st n id mcrt =
      (.error e, stO, ([.sslExists n, .sslCreate n] ++ trO) ++ [.sslGet n]) := by
  unfold ensureSslCertificate
  simp [hb, hc, ho, hg]

theorem ens_false_equal (env : Env) (st : Store) (n : String) (id : CertId)
    (mcrt : ManagedCertificate) (c : SslCertificate) (stO : Store) (trO : List Call)
    (hb : env.sslExistsResult = .ok false) (hc : env.sslCreateResult = none)
    (ho : observeSslCertificateCreationLatencyIfNeeded st id mcrt = (none, stO, trO))
    (hg : env.sslGetResult = .ok c) (heq : certificatesEqual mcrt c = true) :
    ensureSslCertificate env st n id mcrt =
      (.ok c, stO, ([.sslExists n, .sslCreate n] ++ trO) ++ [.sslGet n]) := by
  unfold ensureSslCertificate
  simp [hb, hc, ho, hg, heq]

theorem ens_false_driftErr (env : Env) (st : Store) (n : String) (id : CertId)
    (mcrt : ManagedCertificate) (c : SslCertificate) (e : Err) (stO st2 : Store)
    (trO tr2 : List Call)
    (hb : env.sslExistsResult = .ok false) (hc : env.sslCreateResult = none)
    (ho : observeSslCertificateCreationLatencyIfNeeded st id mcrt = (none, stO, trO))
    (hg : env.sslGetResult = .ok c) (heq : certificatesEqual mcrt c = false)
    (hd : deleteSslCertificate env stO id n = (some e, st2, tr2)) :
    ensureSslCertificate env st n id mcrt =
      (.error e, st2, (([.sslExists n, .sslCreate n] ++ trO) ++ [.sslGet n]) ++ tr2) := by
  unfold ensureSslCertificate
  simp [hb, hc, ho, hg, heq, hd]

theorem ens_false_driftOk (env : Env) (st : Store) (n : String) (id : CertId)
    (mcrt : ManagedCertificate) (c : SslCertificate) (stO st2 : Store)
    (trO tr2 : List Call)
    (hb : env.sslExistsResult = .ok false) (hc : env.sslCreateResult = none)
    (ho : observeSslCertificateCreationLatencyIfNeeded st id mcrt = (none, stO, trO))
    (hg : env.sslGetResult = .ok c) (heq : certificatesEqual mcrt c = false)
    (hd : deleteSslCertificate env stO id n = (none, st2, tr2)) :
    ensureSslCertificate env st n id mcrt =
      (.error .sslCertificateOutOfSyncGotDeleted, st2,
        (([.sslExists n, .sslCreate n] ++ trO) ++ [.sslGet n]) ++ tr2) := by
  unfold ensureSslCertificate
  simp [hb, hc, ho, hg, heq, hd]

theorem sync_listerErr (env : Env) (st : Store) (id : CertId) (e : Err)
    (he : env.listerGetResult = .error e) (h : isNotFound e = false) :
    syncManagedCertificate env st id = (some e, st, [.listerGet id]) := by
  unfold syncManagedCertificate
  simp [he, h]

theorem sync_gone_noEntry (env : Env) (st : Store) (id : CertId) (e : Err)
    (he : env.listerGetResult = .error e) (hn : isNotFound e = true)
    (h : st id = none) :
    syncManagedCertificate env st id = (none, st, [.listerGet id, .storeGetName id]) := by
  unfold syncManagedCertificate stateGetSslCertificateName
  simp [he, hn, h]

theorem sync_gone_entry (env : Env) (st : Store) (id : CertId) (e : Err)
    (en : StateEntry) (r : Option Err) (st' : Store) (tr : List Call)
    (he : env.listerGetResult = .error e) (hn : isNotFound e = true)
    (h : st id = some en)
    (hd : deleteSslCertificate env st id en.sslCertificateName = (r, st', tr)) :
    syncManagedCertificate env st id =
      (r, st', [.listerGet id, .storeGetName id] ++ tr) := by
  unfold syncManagedCertificate stateGetSslCertificateName
  simp [he, hn, h, hd]

theorem sync_randErr (env : Env) (st : Store) (id : CertId)
    (mcrt : ManagedCertificate) (er : Err)
    (hm : env.listerGetResult = .ok mcrt) (h : st id = none)
    (hr : env.randomNameResult = .error er) :
    syncManagedCertificate env st id =
      (some er, st, [.listerGet id, .storeGetName id, .randomName]) := by
  unfold syncManagedCertificate
  simp [hm, ensureName_missErr env st id er h hr]

theorem sync_soft (env : Env) (st : Store) (id : CertId)
    (mcrt : ManagedCertificate) (en : StateEntry) (r : Option Err) (st' : Store)
    (tr : List Call)
    (hm : env.listerGetResult = .ok mcrt) (h : st id = some en)
    (hs : en.softDeleted = true)
    (hd : deleteSslCertificate env st id en.sslCertificateName = (r, st', tr)) :
    syncManagedCertificate env st id =
      (r, st',
        ([.listerGet id, .storeGetName id] ++ [.storeIsSoftDeleted id]) ++ tr) := by
  unfold syncManagedCertificate
  simp [hm, ensureName_hit env st id en h, stateIsSoftDeleted, h, hs, hd]

theorem sync_normal_hit_err (env : Env) (st : Store) (id : CertId)
    (mcrt : ManagedCertificate) (en : StateEntry) (e : Err) (st2 : Store)
    (tr2 : List Call)
    (hm : env.listerGetResult = .ok mcrt) (h : st id = some en)
    (hs : en.softDeleted = false)
    (hens : ensureSslCertificate env st en.sslCertificateName id mcrt =
      (.error e, st2, tr2)) :
    syncManagedCertificate env st id =
      (some e, st2,
        ([.listerGet id, .storeGetName id] ++ [.storeIsSoftDeleted id]) ++ tr2) := by
  unfold syncManagedCertificate
  simp [hm, ensureName_hit env st id en h, stateIsSoftDeleted, h, hs, hens]

theorem sync_normal_hit_ok (env : Env) (st : Store) (id : CertId)
    (mcrt : ManagedCertificate) (en : StateEntry) (c : SslCertificate) (st2 : Store)
    (tr2 : List Call)
    (hm : env.listerGetResult = .ok mcrt) (h : st id = some en)
    (hs : en.softDeleted = false)
    (hens : ensureSslCertificate env st en.sslCertificateName id mcrt =
      (.ok c, st2, tr2)) :
    syncManagedCertificate env st id =
      (env.clientUpdateResult, st2,
        (([.listerGet id, .storeGetName id] ++ [.storeIsSoftDeleted id]) ++ tr2)
          ++ [.clientUpdate mcrt.ns mcrt.name]) := by
  unfold syncManagedCertificate
  simp [hm, ensureName_hit env st id en h, stateIsSoftDeleted, h, hs, hens,
    certificatesCopyStatus]

theorem sync_normal_miss_err (env : Env) (st : Store) (id : CertId)
    (mcrt : ManagedCertificate) (n : String) (e : Err) (st2 : Store)
    (tr2 : List Call)
    (hm : env.listerGetResult = .ok mcrt) (h : st id = none)
    (hr : env.randomNameResult = .ok n)
    (hens : ensureSslCertificate env (stateSetSslCertificateName st id n) n id mcrt =
      (.error e, st2, tr2)) :
    syncManagedCertificate env st id =
      (some e, st2,
        ([.listerGet id, .storeGetName id, .randomName, .storeSetName id n]
          ++ [.storeIsSoftDeleted id]) ++ tr2) := by
  unfold syncManagedCertificate
  simp [hm, ensureName_missOk env st id n h hr, stateIsSoftDeleted,
    setName_fresh st id n h, hens]

theorem sync_normal_miss_ok (env : Env) (st : Store) (id : CertId)
    (mcrt : ManagedCertificate) (n : String) (c : SslCertificate) (st2 : Store)
    (tr2 : List Call)
    (hm : env.listerGetResult = .ok mcrt) (h : st id = none)
    (hr : env.randomNameResult = .ok n)
    (hens : ensureSslCertificate env (stateSetSslCertificateName st id n) n id mcrt =
      (.ok c, st2, tr2)) :
    syncManagedCertificate env st id =
      (env.clientUpdateResult, st2,
        (([.listerGet id, .storeGetName id, .randomName, .storeSetName id n]
          ++ [.storeIsSoftDeleted id]) ++ tr2)
          ++ [.clientUpdate mcrt.ns mcrt.name]) := by
  unfold syncManagedCertificate
  simp [hm, ensureName_missOk env st id n h hr, stateIsSoftDeleted,
    setName_fresh st id n h, hens, certificatesCopyStatus]

/-! ### Trace toolkit. -/

/-- Calls against the External Resource Manager (`SslCertificateManager`). -/
def isExternalManagerCall : Call → Bool
  | .sslExists _ => true
  | .sslCreate _ => true
  | .sslGet _ => true
  | .sslDelete _ => true
  | _ => false

/-- Calls that mutate the State Store. -/
def isStoreMutation : Call → Bool
  | .storeSetName _ _ => true
  | .storeSetSoftDeleted _ => true
  | .storeSetReported _ => true
  | .storeDelete _ => true
  | _ => false

/-- Create calls. -/
def isCreateCall : Call → Bool
  | .sslCreate _ => true
  | _ => false

/-- Latency metric observations. -/
def isObserveCall : Call → Bool
  | .observeLatency _ => true
  | _ => false

/-- The `latencyReported` flag of an identity, `false` when untracked. -/
def flagReported (st : Store) (id : CertId) : Bool :=
  match st id with
  | some e => e.sslCertificateCreationReported
  | none => false

/-- A list with a unique marked element decomposes around it in one way. -/
theorem unique_decomp {α : Type} (x : α) :
    ∀ (A B pre post : List α), x ∉ A → x ∉ B →
      A ++ x :: B = pre ++ x :: post → pre = A ∧ post = B := by
  intro A
  induction A with
  | nil =>
    intro B pre post _ hB h
    cases pre with
    | nil =>
      simp only [List.nil_append, List.cons.injEq] at h
      exact ⟨rfl, h.2.symm⟩
    | cons p ps =>
      simp only [List.nil_append, List.cons_append, List.cons.injEq] at h
      exact absurd (h.2 ▸ List.mem_append_right ps (List.mem_cons_self x post)) hB
  | cons a as ih =>
    intro B pre post hA hB h
    cases pre with
    | nil =>
      simp only [List.cons_append, List.nil_append, List.cons.injEq] at h
      exact absurd (h.1 ▸ List.mem_cons_self a as) hA
    | cons p ps =>
      simp only [List.cons_append, List.cons.injEq] at h
      have hrec := ih B ps post (fun hx => hA (List.mem_cons_of_mem a hx)) hB h.2
      exact ⟨by rw [h.1, hrec.1], hrec.2⟩

/-- The trace of `deleteSslCertificate` takes one of three shapes, and it
ends with the store removal exactly when the remote delete came back
successful or NotFound. -/
theorem delete_trace_cases (env : Env) (st : Store) (id : CertId) (n : String) :
    (deleteSslCertificate env st id n).2.2 = [.storeSetSoftDeleted id] ∨
    ((deleteSslCertificate env st id n).2.2 = [.storeSetSoftDeleted id, .sslDelete n] ∧
      ignoreNotFound env.sslDeleteResult ≠ none) ∨
    ((deleteSslCertificate env st id n).2.2 =
        [.storeSetSoftDeleted id, .sslDelete n, .storeDelete id] ∧
      ignoreNotFound env.sslDeleteResult = none) := by
  unfold deleteSslCertificate
  cases h : stateSetSoftDeleted st id with
  | mk r1 st1 =>
    cases r1 with
    | some e => simp
    | none =>
      cases h2 : ignoreNotFound env.sslDeleteResult with
      | some e => simp [h2]
      | none => simp [h2]

/-- The trace of the latency observer takes one of three shapes. -/
theorem observe_trace_cases (st : Store) (id : CertId) (mcrt : ManagedCertificate) :
    (observeSslCertificateCreationLatencyIfNeeded st id mcrt).2.2 =
        [.storeIsExcluded id] ∨
    (observeSslCertificateCreationLatencyIfNeeded st id mcrt).2.2 =
        [.storeIsExcluded id, .storeIsReported id] ∨
    (observeSslCertificateCreationLatencyIfNeeded st id mcrt).2.2 =
        [.storeIsExcluded id, .storeIsReported id,
         .observeLatency mcrt.creationTimestamp, .storeSetReported id] := by
  unfold observeSslCertificateCreationLatencyIfNeeded
  cases h1 : stateIsExcludedFromSLO st id with
  | error e => simp
  | ok b1 =>
    cases b1 with
    | true => simp
    | false =>
      cases h2 : stateIsSslCertificateCreationReported st id with
      | error e => simp
      | ok b2 => cases b2 <;> simp

/-! ### Full characterization of one reconciliation pass. -/

theorem ignoreNotFound_some (o : Option Err) (d : Err)
    (h : ignoreNotFound o = some d) : o = some d ∧ isNotFound d = false := by
  unfold ignoreNotFound at h
  cases o with
  | none => simp at h
  | some e =>
    by_cases he : isNotFound e = true
    · simp [he] at h
    · simp only [Bool.not_eq_true] at he
      simp [he] at h
      exact ⟨by rw [h.symm], h ▸ he⟩

/-- Facts attached to an invocation of `deleteSslCertificate` on a store
whose entry for `id` is `en`: the delete trace `D`, the returned result
`dres` and the final entry `stAt` of `id`. -/
def DFacts (env : Env) (id : CertId) (n : String) (en : StateEntry)
    (D : List Call) (dres : Option Err) (stAt : Option StateEntry) : Prop :=
  (∃ d, env.sslDeleteResult = some d ∧ isNotFound d = false ∧
    D = [.storeSetSoftDeleted id, .sslDelete n] ∧ dres = some d ∧
    stAt = some { en with softDeleted := true }) ∨
  (ignoreNotFound env.sslDeleteResult = none ∧
    D = [.storeSetSoftDeleted id, .sslDelete n, .storeDelete id] ∧ dres = none ∧
    stAt = none)

/-- Facts attached to a run of the latency observer on a store whose entry
for `id` is `en`: the observer trace `OB` and the entry `enO` afterwards. -/
def OBFacts (id : CertId) (mcrt : ManagedCertificate) (en : StateEntry)
    (OB : List Call) (enO : StateEntry) : Prop :=
  (en.excludedFromSLO = true ∧ OB = [.storeIsExcluded id] ∧ enO = en) ∨
  (en.excludedFromSLO = false ∧ en.sslCertificateCreationReported = true ∧
    OB = [.storeIsExcluded id, .storeIsReported id] ∧ enO = en) ∨
  (en.excludedFromSLO = false ∧ en.sslCertificateCreationReported = false ∧
    OB = [.storeIsExcluded id, .storeIsReported id,
          .observeLatency mcrt.creationTimestamp, .storeSetReported id] ∧
    enO = { en with sslCertificateCreationReported := true })

/-- Facts attached to the name-ensuring prefix of a pass that proceeds past
the soft-delete check: the ensured name `n`, the tracked entry `en` at that
point and the trace prefix `base`. -/
def BaseFacts (env : Env) (st : Store) (id : CertId) (n : String)
    (en : StateEntry) (base : List Call) : Prop :=
  (st id = some en ∧ en.softDeleted = false ∧ n = en.sslCertificateName ∧
    base = [.listerGet id, .storeGetName id, .storeIsSoftDeleted id]) ∨
  (st id = none ∧ env.randomNameResult = .ok n ∧
    en = { sslCertificateName := n, softDeleted := false, excludedFromSLO := false,
           sslCertificateCreationReported := false } ∧
    base = [.listerGet id, .storeGetName id, .randomName, .storeSetName id n,
            .storeIsSoftDeleted id])

/-- The disjunction of all behaviours of one pass: trace shape, returned
result, the final store entry of `id`, and the collaborator outcomes that
drive each branch. -/
def SyncCases (env : Env) (st : Store) (id : CertId)
    (r : Option Err × Store × List Call) : Prop :=
  (∃ e, env.listerGetResult = .error e ∧ isNotFound e = false ∧
    r = (some e, st, [.listerGet id])) ∨
  (∃ e, env.listerGetResult = .error e ∧ isNotFound e = true ∧ st id = none ∧
    r = (none, st, [.listerGet id, .storeGetName id])) ∨
  (∃ mcrt e, env.listerGetResult = .ok mcrt ∧ st id = none ∧
    env.randomNameResult = .error e ∧
    r = (some e, st, [.listerGet id, .storeGetName id, .randomName])) ∨
  (∃ e en D dres stAt, env.listerGetResult = .error e ∧ isNotFound e = true ∧
    st id = some en ∧ DFacts env id en.sslCertificateName en D dres stAt ∧
    r.1 = dres ∧ r.2.1 id = stAt ∧
    r.2.2 = [.listerGet id, .storeGetName id] ++ D) ∨
  (∃ mcrt en D dres stAt, env.listerGetResult = .ok mcrt ∧ st id = some en ∧
    en.softDeleted = true ∧ DFacts env id en.sslCertificateName en D dres stAt ∧
    r.1 = dres ∧ r.2.1 id = stAt ∧
    r.2.2 = [.listerGet id, .storeGetName id, .storeIsSoftDeleted id] ++ D) ∨
  (∃ mcrt n en base e, env.listerGetResult = .ok mcrt ∧
    BaseFacts env st id n en base ∧ env.sslExistsResult = .error e ∧
    r.1 = some e ∧ r.2.1 id = some en ∧ r.2.2 = base ++ [.sslExists n]) ∨
  (∃ mcrt n en base e, env.listerGetResult = .ok mcrt ∧
    BaseFacts env st id n en base ∧ env.sslExistsResult = .ok true ∧
    env.sslGetResult = .error e ∧
    r.1 = some e ∧ r.2.1 id = some en ∧
    r.2.2 = base ++ [.sslExists n, .sslGet n]) ∨
  (∃ mcrt n en base c, env.listerGetResult = .ok mcrt ∧
    BaseFacts env st id n en base ∧ env.sslExistsResult = .ok true ∧
    env.sslGetResult = .ok c ∧ certificatesEqual mcrt c = true ∧
    r.1 = env.clientUpdateResult ∧ r.2.1 id = some en ∧
    r.2.2 = base ++ [.sslExists n, .sslGet n, .clientUpdate mcrt.ns mcrt.name]) ∨
  (∃ mcrt n en base c D dres stAt, env.listerGetResult = .ok mcrt ∧
    BaseFacts env st id n en base ∧ env.sslExistsResult = .ok true ∧
    env.sslGetResult = .ok c ∧ certificatesEqual mcrt c = false ∧
    DFacts env id n en D dres stAt ∧
    (dres = none → r.1 = some .sslCertificateOutOfSyncGotDeleted) ∧
    (∀ d, dres = some d → r.1 = some d) ∧ r.2.1 id = stAt ∧
    r.2.2 = (base ++ [.sslExists n, .sslGet n]) ++ D) ∨
  (∃ mcrt n en base e, env.listerGetResult = .ok mcrt ∧
    BaseFacts env st id n en base ∧ env.sslExistsResult = .ok false ∧
    env.sslCreateResult = some e ∧
    r.1 = some e ∧ r.2.1 id = some en ∧
    r.2.2 = base ++ [.sslExists n, .sslCreate n]) ∨
  (∃ mcrt n en base OB enO e, env.listerGetResult = .ok mcrt ∧
    BaseFacts env st id n en base ∧ env.sslExistsResult = .ok false ∧
    env.sslCreateResult = none ∧ OBFacts id mcrt en OB enO ∧
    env.sslGetResult = .error e ∧
    r.1 = some e ∧ r.2.1 id = some enO ∧
    r.2.2 = ((base ++ [.sslExists n, .sslCreate n]) ++ OB) ++ [.sslGet n]) ∨
  (∃ mcrt n en base OB enO c, env.listerGetResult = .ok mcrt ∧
    BaseFacts env st id n en base ∧ env.sslExistsResult = .ok false ∧
    env.sslCreateResult = none ∧ OBFacts id mcrt en OB enO ∧
    env.sslGetResult = .ok c ∧ certificatesEqual mcrt c = true ∧
    r.1 = env.clientUpdateResult ∧ r.2.1 id = some enO ∧
    r.2.2 = ((base ++ [.sslExists n, .sslCreate n]) ++ OB)
      ++ [.sslGet n, .clientUpdate mcrt.ns mcrt.name]) ∨
  (∃ mcrt n en base OB enO c D dres stAt, env.listerGetResult = .ok mcrt ∧
    BaseFacts env st id n en base ∧ env.sslExistsResult = .ok false ∧
    env.sslCreateResult = none ∧ OBFacts id mcrt en OB enO ∧
    env.sslGetResult = .ok c ∧ certificatesEqual mcrt c = false ∧
    DFacts env id n enO D dres stAt ∧
    (dres = none → r.1 = some .sslCertificateOutOfSyncGotDeleted) ∧
    (∀ d, dres = some d → r.1 = some d) ∧ r.2.1 id = stAt ∧
    r.2.2 = (((base ++ [.sslExists n, .sslCreate n]) ++ OB) ++ [.sslGet n]) ++ D)

theorem sync_normal_assemble (env : Env) (st : Store) (id : CertId)
    (mcrt : ManagedCertificate) (n : String) (en : StateEntry) (base : List Call)
    (hm : env.listerGetResult = .ok mcrt)
    (hB : BaseFacts env st id n en base) :
    ∃ stB, stB id = some en ∧
      (∀ e st2 tr2, ensureSslCertificate env stB n id mcrt = (.error e, st2, tr2) →
        syncManagedCertificate env st id = (some e, st2, base ++ tr2)) ∧
      (∀ c st2 tr2, ensureSslCertificate env stB n id mcrt = (.ok c, st2, tr2) →
        syncManagedCertificate env st id =
          (env.clientUpdateResult, st2,
            (base ++ tr2) ++ [.clientUpdate mcrt.ns mcrt.name])) := by
  rcases hB with ⟨hE, hsd, hn, hbase⟩ | ⟨hE, hr, hen, hbase⟩
  · subst hn
    refine ⟨st, hE, ?_, ?_⟩
    · intro e st2 tr2 hens
      rw [sync_normal_hit_err env st id mcrt en e st2 tr2 hm hE hsd hens, hbase]
      simp
    · intro c st2 tr2 hens
      rw [sync_normal_hit_ok env st id mcrt en c st2 tr2 hm hE hsd hens, hbase]
      simp
  · refine ⟨stateSetSslCertificateName st id n, ?_, ?_, ?_⟩
    · rw [setName_fresh st id n hE, hen]
    · intro e st2 tr2 hens
      rw [sync_normal_miss_err env st id mcrt n e st2 tr2 hm hE hr hens, hbase]
      simp
    · intro c st2 tr2 hens
      rw [sync_normal_miss_ok env st id mcrt n c st2 tr2 hm hE hr hens, hbase]
      simp

theorem created_cases (env : Env) (st : Store) (id : CertId) (mcrt : ManagedCertificate)
    (n : String) (en enO : StateEntry) (base OB : List Call) (stB stO : Store)
    (hm : env.listerGetResult = .ok mcrt)
    (hB : BaseFacts env st id n en base)
    (hx : env.sslExistsResult = .ok false)
    (hc : env.sslCreateResult = none)
    (herr : ∀ e st2 tr2, ensureSslCertificate env stB n id mcrt = (.error e, st2, tr2) →
      syncManagedCertificate env st id = (some e, st2, base ++ tr2))
    (hok : ∀ c st2 tr2, ensureSslCertificate env stB n id mcrt = (.ok c, st2, tr2) →
      syncManagedCertificate env st id =
        (env.clientUpdateResult, st2, (base ++ tr2) ++ [.clientUpdate mcrt.ns mcrt.name]))
    (ho : observeSslCertificateCreationLatencyIfNeeded stB id mcrt = (none, stO, OB))
    (hstO : stO id = some enO)
    (hOB : OBFacts id mcrt en OB enO) :
    SyncCases env st id (syncManagedCertificate env st id) := by
  rcases hg : env.sslGetResult with e | c
  · rw [herr e stO _ (ens_false_getErr env stB n id mcrt e stO OB hx hc ho hg)]
    refine Or.inr (Or.inr (Or.inr (Or.inr (Or.inr (Or.inr (Or.inr (Or.inr (Or.inr (Or.inr
      (Or.inl ⟨mcrt, n, en, base, OB, enO, e, hm, hB, hx, hc, hOB, hg, rfl, hstO, ?_⟩))))))))))
    simp
  · cases heq : certificatesEqual mcrt c with
    | true =>
      rw [hok c stO _ (ens_false_equal env stB n id mcrt c stO OB hx hc ho hg heq)]
      refine Or.inr (Or.inr (Or.inr (Or.inr (Or.inr (Or.inr (Or.inr (Or.inr (Or.inr (Or.inr
        (Or.inr (Or.inl
          ⟨mcrt, n, en, base, OB, enO, c, hm, hB, hx, hc, hOB, hg, heq, rfl, hstO, ?_⟩)))))))))))
      simp
    | false =>
      rcases hI : ignoreNotFound env.sslDeleteResult with _ | d
      · have hdel := delete_ok env stO id n enO hstO hI
        rw [herr _ _ _ (ens_false_driftOk env stB n id mcrt c stO _ OB _ hx hc ho hg heq hdel)]
        refine Or.inr (Or.inr (Or.inr (Or.inr (Or.inr (Or.inr (Or.inr (Or.inr (Or.inr (Or.inr
          (Or.inr (Or.inr
            ⟨mcrt, n, en, base, OB, enO, c, _, none, none, hm, hB, hx, hc, hOB, hg, heq,
              Or.inr ⟨hI, rfl, rfl, rfl⟩, fun _ => rfl, fun d hd => by simp at hd,
              ?_, ?_⟩)))))))))))
        · simp [stateDelete]
        · simp
      · obtain ⟨hDr, hDnf⟩ := ignoreNotFound_some _ _ hI
        have hdel := delete_err env stO id n enO d hstO hDr hDnf
        rw [herr _ _ _ (ens_false_driftErr env stB n id mcrt c d stO _ OB _ hx hc ho hg heq hdel)]
        refine Or.inr (Or.inr (Or.inr (Or.inr (Or.inr (Or.inr (Or.inr (Or.inr (Or.inr (Or.inr
          (Or.inr (Or.inr
            ⟨mcrt, n, en, base, OB, enO, c, _, some d, some { enO with softDeleted := true },
              hm, hB, hx, hc, hOB, hg, heq,
              Or.inl ⟨d, hDr, hDnf, rfl, rfl, rfl⟩, fun h => by simp at h,
              fun d' hd' => hd', ?_, ?_⟩)))))))))))
        · simp
        · simp

theorem normal_cases (env : Env) (st : Store) (id : CertId) (mcrt : ManagedCertificate)
    (n : String) (en : StateEntry) (base : List Call)
    (hm : env.listerGetResult = .ok mcrt)
    (hB : BaseFacts env st id n en base) :
    SyncCases env st id (syncManagedCertificate env st id) := by
  obtain ⟨stB, hstB, herr, hok⟩ := sync_normal_assemble env st id mcrt n en base hm hB
  rcases hx : env.sslExistsResult with e | b
  · rw [herr e stB _ (ens_existsErr env stB n id mcrt e hx)]
    exact Or.inr (Or.inr (Or.inr (Or.inr (Or.inr (Or.inl
      ⟨mcrt, n, en, base, e, hm, hB, hx, rfl, hstB, rfl⟩)))))
  · cases b with
    | true =>
      rcases hg : env.sslGetResult with e | c
      · rw [herr e stB _ (ens_true_getErr env stB n id mcrt e hx hg)]
        exact Or.inr (Or.inr (Or.inr (Or.inr (Or.inr (Or.inr (Or.inl
          ⟨mcrt, n, en, base, e, hm, hB, hx, hg, rfl, hstB, rfl⟩))))))
      · cases heq : certificatesEqual mcrt c with
        | true =>
          rw [hok c stB _ (ens_true_equal env stB n id mcrt c hx hg heq)]
          refine Or.inr (Or.inr (Or.inr (Or.inr (Or.inr (Or.inr (Or.inr (Or.inl
            ⟨mcrt, n, en, base, c, hm, hB, hx, hg, heq, rfl, hstB, ?_⟩)))))))
          simp
        | false =>
          rcases hI : ignoreNotFound env.sslDeleteResult with _ | d
          · have hdel := delete_ok env stB id n en hstB hI
            rw [herr _ _ _ (ens_true_driftOk env stB n id mcrt c _ _ hx hg heq hdel)]
            refine Or.inr (Or.inr (Or.inr (Or.inr (Or.inr (Or.inr (Or.inr (Or.inr (Or.inl
              ⟨mcrt, n, en, base, c, _, none, none, hm, hB, hx, hg, heq,
                Or.inr ⟨hI, rfl, rfl, rfl⟩, fun _ => rfl, fun d hd => by simp at hd,
                ?_, ?_⟩))))))))
            · simp [stateDelete]
            · simp
          · obtain ⟨hDr, hDnf⟩ := ignoreNotFound_some _ _ hI
            have hdel := delete_err env stB id n en d hstB hDr hDnf
            rw [herr _ _ _ (ens_true_driftErr env stB n id mcrt c d _ _ hx hg heq hdel)]
            refine Or.inr (Or.inr (Or.inr (Or.inr (Or.inr (Or.inr (Or.inr (Or.inr (Or.inl
              ⟨mcrt, n, en, base, c, _, some d, some { en with softDeleted := true },
                hm, hB, hx, hg, heq,
                Or.inl ⟨d, hDr, hDnf, rfl, rfl, rfl⟩, fun h => by simp at h,
                fun d' hd' => hd', ?_, ?_⟩))))))))
            · simp
            · simp
    | false =>
      rcases hc : env.sslCreateResult with _ | e
      · cases hexcl : en.excludedFromSLO with
        | true =>
          exact created_cases env st id mcrt n en en base _ stB stB hm hB hx hc herr hok
            (observe_excluded stB id mcrt en hstB hexcl) hstB (Or.inl ⟨hexcl, rfl, rfl⟩)
        | false =>
          cases hrep : en.sslCertificateCreationReported with
          | true =>
            exact created_cases env st id mcrt n en en base _ stB stB hm hB hx hc herr hok
              (observe_reported stB id mcrt en hstB hexcl hrep) hstB
              (Or.inr (Or.inl ⟨hexcl, hrep, rfl, rfl⟩))
          | false =>
            refine created_cases env st id mcrt n en
              { en with sslCertificateCreationReported := true } base _ stB
              (fun j => if j = id then some { en with sslCertificateCreationReported := true }
                else stB j)
              hm hB hx hc herr hok
              (observe_fresh stB id mcrt en hstB hexcl hrep) ?_
              (Or.inr (Or.inr ⟨hexcl, hrep, rfl, rfl⟩))
            simp
      · rw [herr e stB _ (ens_createErr env stB n id mcrt e hx hc)]
        exact Or.inr (Or.inr (Or.inr (Or.inr (Or.inr (Or.inr (Or.inr (Or.inr (Or.inr (Or.inl
          ⟨mcrt, n, en, base, e, hm, hB, hx, hc, rfl, hstB, rfl⟩)))))))))

/-- Every reconciliation pass falls into one of the behaviours of
`SyncCases`: the complete case analysis of `syncImpl.ManagedCertificate`. -/
theorem sync_characterization (env : Env) (st : Store) (id : CertId) :
    SyncCases env st id (syncManagedCertificate env st id) := by
  rcases hL : env.listerGetResult with e | mcrt
  · cases hNF : isNotFound e with
    | false =>
      rw [sync_listerErr env st id e hL hNF]
      exact Or.inl ⟨e, hL, hNF, rfl⟩
    | true =>
      rcases hE : st id with _ | en
      · rw [sync_gone_noEntry env st id e hL hNF hE]
        exact Or.inr (Or.inl ⟨e, hL, hNF, hE, rfl⟩)
      · rcases hI : ignoreNotFound env.sslDeleteResult with _ | d
        · have hdel := delete_ok env st id en.sslCertificateName en hE hI
          rw [sync_gone_entry env st id e en _ _ _ hL hNF hE hdel]
          refine Or.inr (Or.inr (Or.inr (Or.inl
            ⟨e, en, _, none, none, hL, hNF, hE, Or.inr ⟨hI, rfl, rfl, rfl⟩,
              rfl, ?_, rfl⟩)))
          simp [stateDelete]
        · obtain ⟨hDr, hDnf⟩ := ignoreNotFound_some _ _ hI
          have hdel := delete_err env st id en.sslCertificateName en d hE hDr hDnf
          rw [sync_gone_entry env st id e en _ _ _ hL hNF hE hdel]
          refine Or.inr (Or.inr (Or.inr (Or.inl
            ⟨e, en, _, some d, some { en with softDeleted := true }, hL, hNF, hE,
              Or.inl ⟨d, hDr, hDnf, rfl, rfl, rfl⟩, rfl, ?_, rfl⟩)))
          simp
  · rcases hE : st id with _ | en
    · rcases hR : env.randomNameResult with er | n
      · rw [sync_randErr env st id mcrt er hL hE hR]
        exact Or.inr (Or.inr (Or.inl ⟨mcrt, er, hL, hE, hR, rfl⟩))
      · exact normal_cases env st id mcrt n _ _ hL (Or.inr ⟨hE, hR, rfl, rfl⟩)
    · cases hsd : en.softDeleted with
      | true =>
        rcases hI : ignoreNotFound env.sslDeleteResult with _ | d
        · have hdel := delete_ok env st id en.sslCertificateName en hE hI
          rw [sync_soft env st id mcrt en _ _ _ hL hE hsd hdel]
          refine Or.inr (Or.inr (Or.inr (Or.inr (Or.inl
            ⟨mcrt, en, _, none, none, hL, hE, hsd, Or.inr ⟨hI, rfl, rfl, rfl⟩,
              rfl, ?_, by simp⟩))))
          simp [stateDelete]
        · obtain ⟨hDr, hDnf⟩ := ignoreNotFound_some _ _ hI
          have hdel := delete_err env st id en.sslCertificateName en d hE hDr hDnf
          rw [sync_soft env st id mcrt en _ _ _ hL hE hsd hdel]
          refine Or.inr (Or.inr (Or.inr (Or.inr (Or.inl
            ⟨mcrt, en, _, some d, some { en with softDeleted := true }, hL, hE, hsd,
              Or.inl ⟨d, hDr, hDnf, rfl, rfl, rfl⟩, rfl, ?_, by simp⟩))))
          simp
      | false =>
        exact normal_cases env st id mcrt en.sslCertificateName en _ hL
          (Or.inl ⟨hE, hsd, rfl, rfl⟩)

/-! ### Claims. -/

theorem stateGetName_err (st : Store) (id : CertId) :
    ∀ e, stateGetSslCertificateName st id = .error e → e = .managedCertificateNotFound := by
  unfold stateGetSslCertificateName
  cases st id <;> simp

/-- Claim C1: in every invocation of `Sync.ManagedCertificate`, any error
returned by a State Store operation or an External Resource Manager
operation aborts the pass immediately (the failing call is the last call
of the trace) and is returned to the caller unmodified; in particular the
spec-modelled State Store's `GetSslCertificateName` can only fail with the
NotTracked sentinel, so no other error can be swallowed by
`ensureSslCertificateName` proceeding to generate a fresh name. -/
theorem c1_error_propagation (env : Env) (st : Store) (id : CertId) :
    (∀ e, stateGetSslCertificateName st id = .error e →
      e = .managedCertificateNotFound) ∧
    (∀ e, env.listerGetResult = .error e → isNotFound e = false →
      syncManagedCertificate env st id = (some e, st, [.listerGet id])) ∧
    (∀ e, env.randomNameResult = .error e →
      .randomName ∈ (syncManagedCertificate env st id).2.2 →
      (syncManagedCertificate env st id).1 = some e ∧
      (syncManagedCertificate env st id).2.2.getLast? = some .randomName) ∧
    (∀ n e, env.sslExistsResult = .error e →
      .sslExists n ∈ (syncManagedCertificate env st id).2.2 →
      (syncManagedCertificate env st id).1 = some e ∧
      (syncManagedCertificate env st id).2.2.getLast? = some (.sslExists n)) ∧
    (∀ n e, env.sslCreateResult = some e →
      .sslCreate n ∈ (syncManagedCertificate env st id).2.2 →
      (syncManagedCertificate env st id).1 = some e ∧
      (syncManagedCertificate env st id).2.2.getLast? = some (.sslCreate n)) ∧
    (∀ n e, env.sslGetResult = .error e →
      .sslGet n ∈ (syncManagedCertificate env st id).2.2 →
      (syncManagedCertificate env st id).1 = some e ∧
      (syncManagedCertificate env st id).2.2.getLast? = some (.sslGet n)) ∧
    (∀ n e, env.sslDeleteResult = some e → isNotFound e = false →
      .sslDelete n ∈ (syncManagedCertificate env st id).2.2 →
      (syncManagedCertificate env st id).1 = some e ∧
      (syncManagedCertificate env st id).2.2.getLast? = some (.sslDelete n)) ∧
    (∀ a b e, env.clientUpdateResult = some e →
      .clientUpdate a b ∈ (syncManagedCertificate env st id).2.2 →
      (syncManagedCertificate env st id).1 = some e) := by
  have H := sync_characterization env st id
  refine ⟨stateGetName_err st id, ?_, ?_, ?_, ?_, ?_, ?_, ?_⟩ <;>
  · intros
    rcases H with
      ⟨e0, h1, h2, h3⟩ |
      ⟨e0, h1, h2, h3, h4⟩ |
      ⟨mc, e0, h1, h2, h3, h4⟩ |
      ⟨e0, en, D, dres, stAt, h1, h2, h3,
        ⟨d0, hd1, hd2, hDeq, hdres, hstAt⟩ | ⟨hd1, hDeq, hdres, hstAt⟩, hres, hst, htr⟩ |
      ⟨mc, en, D, dres, stAt, h1, h2, h3,
        ⟨d0, hd1, hd2, hDeq, hdres, hstAt⟩ | ⟨hd1, hDeq, hdres, hstAt⟩, hres, hst, htr⟩ |
      ⟨mc, n0, en, base, e0, h1, ⟨hE, hsd, hn, hbase⟩ | ⟨hE, hr, hen, hbase⟩, hx,
        hres, hst, htr⟩ |
      ⟨mc, n0, en, base, e0, h1, ⟨hE, hsd, hn, hbase⟩ | ⟨hE, hr, hen, hbase⟩, hx, hg,
        hres, hst, htr⟩ |
      ⟨mc, n0, en, base, c0, h1, ⟨hE, hsd, hn, hbase⟩ | ⟨hE, hr, hen, hbase⟩, hx, hg, heq,
        hres, hst, htr⟩ |
      ⟨mc, n0, en, base, c0, D, dres, stAt, h1, ⟨hE, hsd, hn, hbase⟩ | ⟨hE, hr, hen, hbase⟩,
        hx, hg, heq,
        ⟨d0, hd1, hd2, hDeq, hdres, hstAt⟩ | ⟨hd1, hDeq, hdres, hstAt⟩,
        hres1, hres2, hst, htr⟩ |
      ⟨mc, n0, en, base, e0, h1, ⟨hE, hsd, hn, hbase⟩ | ⟨hE, hr, hen, hbase⟩, hx, hc,
        hres, hst, htr⟩ |
      ⟨mc, n0, en, base, OB, enO, e0, h1, ⟨hE, hsd, hn, hbase⟩ | ⟨hE, hr, hen, hbase⟩,
        hx, hc,
        ⟨hf1, hOBeq, henO⟩ | ⟨hf1, hf2, hOBeq, henO⟩ | ⟨hf1, hf2, hOBeq, henO⟩, hg,
        hres, hst, htr⟩ |
      ⟨mc, n0, en, base, OB, enO, c0, h1, ⟨hE, hsd, hn, hbase⟩ | ⟨hE, hr, hen, hbase⟩,
        hx, hc,
        ⟨hf1, hOBeq, henO⟩ | ⟨hf1, hf2, hOBeq, henO⟩ | ⟨hf1, hf2, hOBeq, henO⟩, hg, heq,
        hres, hst, htr⟩ |
      ⟨mc, n0, en, base, OB, enO, c0, D, dres, stAt, h1,
        ⟨hE, hsd, hn, hbase⟩ | ⟨hE, hr, hen, hbase⟩, hx, hc,
        ⟨hf1, hOBeq, henO⟩ | ⟨hf1, hf2, hOBeq, henO⟩ | ⟨hf1, hf2, hOBeq, henO⟩, hg, heq,
        ⟨d0, hd1, hd2, hDeq, hdres, hstAt⟩ | ⟨hd1, hDeq, hdres, hstAt⟩,
        hres1, hres2, hst, htr⟩ <;>
    simp_all [ignoreNotFound]

/-- Replay of the store mutations recorded in a trace: the State Store
contents at any point of a pass are the replay of the trace prefix up to
that point. -/
def applyCall (st : Store) : Call → Store
  | .storeSetName id n => stateSetSslCertificateName st id n
  | .storeSetSoftDeleted id => (stateSetSoftDeleted st id).2
  | .storeSetReported id => (stateSetSslCertificateCreationReported st id).2
  | .storeDelete id => stateDelete st id
  | _ => st

/-- The store obtained by replaying a trace from `st`. -/
def replayStore (st : Store) (tr : List Call) : Store := tr.foldl applyCall st

theorem DFacts_noCreate {env : Env} {id : CertId} {n : String} {en : StateEntry}
    {D : List Call} {dres : Option Err} {stAt : Option StateEntry}
    (h : DFacts env id n en D dres stAt) : ∀ m, Call.sslCreate m ∉ D := by
  rcases h with ⟨d, _, _, rfl, _, _⟩ | ⟨_, rfl, _, _⟩ <;> intro m <;> simp

theorem OBFacts_noCreate {id : CertId} {mcrt : ManagedCertificate} {en enO : StateEntry}
    {OB : List Call} (h : OBFacts id mcrt en OB enO) : ∀ m, Call.sslCreate m ∉ OB := by
  rcases h with ⟨_, rfl, _⟩ | ⟨_, _, rfl, _⟩ | ⟨_, _, rfl, _⟩ <;> intro m <;> simp

theorem replay_hit (st : Store) (id : CertId) (en : StateEntry) (n : String)
    (hE : st id = some en) :
    stateGetSslCertificateName
      (replayStore st [.listerGet id, .storeGetName id, .storeIsSoftDeleted id,
        .sslExists n]) id = .ok en.sslCertificateName := by
  simp [replayStore, List.foldl_cons, List.foldl_nil, applyCall,
    stateGetSslCertificateName, hE]

theorem replay_miss (st : Store) (id : CertId) (n : String) :
    stateGetSslCertificateName
      (replayStore st [.listerGet id, .storeGetName id, .randomName,
        .storeSetName id n, .storeIsSoftDeleted id, .sslExists n]) id = .ok n := by
  have := getName_setName st id n
  simp [replayStore, List.foldl_cons, List.foldl_nil, applyCall]
  exact this

/-- Claim C2: in every execution of `Sync.ManagedCertificate`, whenever a
create call for name `n` is issued to the External Resource Manager, the
State Store obtained by replaying the trace prefix preceding that call
already records `n` as the identity's external name: the name is persisted
strictly before any create. -/
theorem c2_name_recorded_before_create (env : Env) (st : Store) (id : CertId) :
    ∀ n pre post,
      (syncManagedCertificate env st id).2.2 = pre ++ .sslCreate n :: post →
      stateGetSslCertificateName (replayStore st pre) id = .ok n := by
  intro n pre post h
  have hmem : Call.sslCreate n ∈ (syncManagedCertificate env st id).2.2 := by
    rw [h]
    exact List.mem_append_right _ (List.mem_cons_self _ _)
  rcases sync_characterization env st id with
    ⟨e0, h1, h2, h3⟩ |
    ⟨e0, h1, h2, h3, h4⟩ |
    ⟨mc, e0, h1, h2, h3, h4⟩ |
    ⟨e0, en, D, dres, stAt, h1, h2, h3, hD, hres, hst, htr⟩ |
    ⟨mc, en, D, dres, stAt, h1, h2, h3, hD, hres, hst, htr⟩ |
    ⟨mc, n0, en, base, e0, h1, hB, hx, hres, hst, htr⟩ |
    ⟨mc, n0, en, base, e0, h1, hB, hx, hg, hres, hst, htr⟩ |
    ⟨mc, n0, en, base, c0, h1, hB, hx, hg, heq, hres, hst, htr⟩ |
    ⟨mc, n0, en, base, c0, D, dres, stAt, h1, hB, hx, hg, heq, hD, hres1, hres2, hst, htr⟩ |
    ⟨mc, n0, en, base, e0, h1, hB, hx, hc, hres, hst, htr⟩ |
    ⟨mc, n0, en, base, OB, enO, e0, h1, hB, hx, hc, hOB, hg, hres, hst, htr⟩ |
    ⟨mc, n0, en, base, OB, enO, c0, h1, hB, hx, hc, hOB, hg, heq, hres, hst, htr⟩ |
    ⟨mc, n0, en, base, OB, enO, c0, D, dres, stAt, h1, hB, hx, hc, hOB, hg, heq, hD,
      hres1, hres2, hst, htr⟩
  · rw [h3] at hmem; simp at hmem
  · rw [h4] at hmem; simp at hmem
  · rw [h4] at hmem; simp at hmem
  · rw [htr] at hmem; simp at hmem
    exact absurd hmem (DFacts_noCreate hD n)
  · rw [htr] at hmem; simp at hmem
    exact absurd hmem (DFacts_noCreate hD n)
  · rcases hB with ⟨hE, hsd, hn, hbase⟩ | ⟨hE, hr, hen, hbase⟩ <;> subst hbase <;>
      (rw [htr] at hmem; simp at hmem)
  · rcases hB with ⟨hE, hsd, hn, hbase⟩ | ⟨hE, hr, hen, hbase⟩ <;> subst hbase <;>
      (rw [htr] at hmem; simp at hmem)
  · rcases hB with ⟨hE, hsd, hn, hbase⟩ | ⟨hE, hr, hen, hbase⟩ <;> subst hbase <;>
      (rw [htr] at hmem; simp at hmem)
  · rcases hB with ⟨hE, hsd, hn, hbase⟩ | ⟨hE, hr, hen, hbase⟩ <;> subst hbase <;>
      (rw [htr] at hmem; simp at hmem; exact absurd hmem (DFacts_noCreate hD n))
  · rcases hB with ⟨hE, hsd, hn, hbase⟩ | ⟨hE, hr, hen, hbase⟩ <;> subst hbase
    · have hn0 : n = n0 := by rw [htr] at hmem; simp at hmem; exact hmem
      subst hn0
      obtain ⟨hpre, _⟩ := unique_decomp (Call.sslCreate n)
        [.listerGet id, .storeGetName id, .storeIsSoftDeleted id, .sslExists n]
        [] pre post (by simp) (by simp) (by simpa using htr.symm.trans h)
      rw [hpre, hn]
      exact replay_hit st id en n hE
    · have hn0 : n = n0 := by rw [htr] at hmem; simp at hmem; exact hmem
      subst hn0
      obtain ⟨hpre, _⟩ := unique_decomp (Call.sslCreate n)
        [.listerGet id, .storeGetName id, .randomName, .storeSetName id n,
          .storeIsSoftDeleted id, .sslExists n]
        [] pre post (by simp) (by simp) (by simpa using htr.symm.trans h)
      rw [hpre]
      exact replay_miss st id n
  · rcases hB with ⟨hE, hsd, hn, hbase⟩ | ⟨hE, hr, hen, hbase⟩ <;> subst hbase
    · have hn0 : n = n0 := by
        rw [htr] at hmem; simp at hmem
        rcases hmem with hmem | hmem
        · exact hmem
        · exact absurd hmem (OBFacts_noCreate hOB n)
      subst hn0
      obtain ⟨hpre, _⟩ := unique_decomp (Call.sslCreate n)
        [.listerGet id, .storeGetName id, .storeIsSoftDeleted id, .sslExists n]
        (OB ++ [.sslGet n]) pre post (by simp)
        (by simp; exact OBFacts_noCreate hOB n) (by simpa using htr.symm.trans h)
      rw [hpre, hn]
      exact replay_hit st id en n hE
    · have hn0 : n = n0 := by
        rw [htr] at hmem; simp at hmem
        rcases hmem with hmem | hmem
        · exact hmem
        · exact absurd hmem (OBFacts_noCreate hOB n)
      subst hn0
      obtain ⟨hpre, _⟩ := unique_decomp (Call.sslCreate n)
        [.listerGet id, .storeGetName id, .randomName, .storeSetName id n,
          .storeIsSoftDeleted id, .sslExists n]
        (OB ++ [.sslGet n]) pre post (by simp)
        (by simp; exact OBFacts_noCreate hOB n) (by simpa using htr.symm.trans h)
      rw [hpre]
      exact replay_miss st id n
  · rcases hB with ⟨hE, hsd, hn, hbase⟩ | ⟨hE, hr, hen, hbase⟩ <;> subst hbase
    · have hn0 : n = n0 := by
        rw [htr] at hmem; simp at hmem
        rcases hmem with hmem | hmem
        · exact hmem
        · exact absurd hmem (OBFacts_noCreate hOB n)
      subst hn0
      obtain ⟨hpre, _⟩ := unique_decomp (Call.sslCreate n)
        [.listerGet id, .storeGetName id, .storeIsSoftDeleted id, .sslExists n]
        (OB ++ [.sslGet n, .clientUpdate mc.ns mc.name]) pre post (by simp)
        (by simp; exact OBFacts_noCreate hOB n) (by simpa using htr.symm.trans h)
      rw [hpre, hn]
      exact replay_hit st id en n hE
    · have hn0 : n = n0 := by
        rw [htr] at hmem; simp at hmem
        rcases hmem with hmem | hmem
        · exact hmem
        · exact absurd hmem (OBFacts_noCreate hOB n)
      subst hn0
      obtain ⟨hpre, _⟩ := unique_decomp (Call.sslCreate n)
        [.listerGet id, .storeGetName id, .randomName, .storeSetName id n,
          .storeIsSoftDeleted id, .sslExists n]
        (OB ++ [.sslGet n, .clientUpdate mc.ns mc.name]) pre post (by simp)
        (by simp; exact OBFacts_noCreate hOB n) (by simpa using htr.symm.trans h)
      rw [hpre]
      exact replay_miss st id n
  · rcases hB with ⟨hE, hsd, hn, hbase⟩ | ⟨hE, hr, hen, hbase⟩ <;> subst hbase
    · have hn0 : n = n0 := by
        rw [htr] at hmem; simp at hmem
        rcases hmem with hmem | hmem | hmem
        · exact hmem
        · exact absurd hmem (OBFacts_noCreate hOB n)
        · exact absurd hmem (DFacts_noCreate hD n)
      subst hn0
      obtain ⟨hpre, _⟩ := unique_decomp (Call.sslCreate n)
        [.listerGet id, .storeGetName id, .storeIsSoftDeleted id, .sslExists n]
        ((OB ++ [.sslGet n]) ++ D) pre post (by simp)
        (by simp
            exact ⟨OBFacts_noCreate hOB n, DFacts_noCreate hD n⟩)
        (by simpa using htr.symm.trans h)
      rw [hpre, hn]
      exact replay_hit st id en n hE
    · have hn0 : n = n0 := by
        rw [htr] at hmem; simp at hmem
        rcases hmem with hmem | hmem | hmem
        · exact hmem
        · exact absurd hmem (OBFacts_noCreate hOB n)
        · exact absurd hmem (DFacts_noCreate hD n)
      subst hn0
      obtain ⟨hpre, _⟩ := unique_decomp (Call.sslCreate n)
        [.listerGet id, .storeGetName id, .randomName, .storeSetName id n,
          .storeIsSoftDeleted id, .sslExists n]
        ((OB ++ [.sslGet n]) ++ D) pre post (by simp)
        (by simp
            exact ⟨OBFacts_noCreate hOB n, DFacts_noCreate hD n⟩)
        (by simpa using htr.symm.trans h)
      rw [hpre]
      exact replay_miss st id n

theorem DFacts_createCount {env : Env} {id : CertId} {n : String} {en : StateEntry}
    {D : List Call} {dres : Option Err} {stAt : Option StateEntry}
    (h : DFacts env id n en D dres stAt) : D.countP isCreateCall = 0 := by
  rcases h with ⟨d, _, _, rfl, _, _⟩ | ⟨_, rfl, _, _⟩ <;>
    simp [List.countP_cons, isCreateCall]

theorem OBFacts_createCount {id : CertId} {mcrt : ManagedCertificate} {en enO : StateEntry}
    {OB : List Call} (h : OBFacts id mcrt en OB enO) : OB.countP isCreateCall = 0 := by
  rcases h with ⟨_, rfl, _⟩ | ⟨_, _, rfl, _⟩ | ⟨_, _, rfl, _⟩ <;>
    simp [List.countP_cons, isCreateCall]

/-- Claim C6: in every pass, `Sync.ManagedCertificate` issues a create call
only when the immediately preceding exists check returned false (the call
just before any create in the trace is the exists check for the same name,
and the exists outcome supplied by the environment is `false`), and the
trace contains at most one create call. -/
theorem c6_create_gated_by_exists (env : Env) (st : Store) (id : CertId) :
    (∀ n, .sslCreate n ∈ (syncManagedCertificate env st id).2.2 →
      env.sslExistsResult = .ok false ∧
      ∀ pre post,
        (syncManagedCertificate env st id).2.2 = pre ++ .sslCreate n :: post →
        pre.getLast? = some (.sslExists n)) ∧
    (syncManagedCertificate env st id).2.2.countP isCreateCall ≤ 1 := by
  rcases sync_characterization env st id with
    ⟨e0, h1, h2, h3⟩ |
    ⟨e0, h1, h2, h3, h4⟩ |
    ⟨mc, e0, h1, h2, h3, h4⟩ |
    ⟨e0, en, D, dres, stAt, h1, h2, h3, hD, hres, hst, htr⟩ |
    ⟨mc, en, D, dres, stAt, h1, h2, h3, hD, hres, hst, htr⟩ |
    ⟨mc, n0, en, base, e0, h1, hB, hx, hres, hst, htr⟩ |
    ⟨mc, n0, en, base, e0, h1, hB, hx, hg, hres, hst, htr⟩ |
    ⟨mc, n0, en, base, c0, h1, hB, hx, hg, heq, hres, hst, htr⟩ |
    ⟨mc, n0, en, base, c0, D, dres, stAt, h1, hB, hx, hg, heq, hD, hres1, hres2, hst, htr⟩ |
    ⟨mc, n0, en, base, e0, h1, hB, hx, hc, hres, hst, htr⟩ |
    ⟨mc, n0, en, base, OB, enO, e0, h1, hB, hx, hc, hOB, hg, hres, hst, htr⟩ |
    ⟨mc, n0, en, base, OB, enO, c0, h1, hB, hx, hc, hOB, hg, heq, hres, hst, htr⟩ |
    ⟨mc, n0, en, base, OB, enO, c0, D, dres, stAt, h1, hB, hx, hc, hOB, hg, heq, hD,
      hres1, hres2, hst, htr⟩
  · rw [h3]; constructor
    · intro n hmem; simp at hmem
    · simp [List.countP_cons, isCreateCall]
  · rw [h4]; constructor
    · intro n hmem; simp at hmem
    · simp [List.countP_cons, isCreateCall]
  · rw [h4]; constructor
    · intro n hmem; simp at hmem
    · simp [List.countP_cons, isCreateCall]
  · rw [htr]; constructor
    · intro n hmem; simp at hmem
      exact absurd hmem (DFacts_noCreate hD n)
    · simp [List.countP_append, List.countP_cons, isCreateCall, DFacts_createCount hD]
  · rw [htr]; constructor
    · intro n hmem; simp at hmem
      exact absurd hmem (DFacts_noCreate hD n)
    · simp [List.countP_append, List.countP_cons, isCreateCall, DFacts_createCount hD]
  · rcases hB with ⟨hE, hsd, hn, hbase⟩ | ⟨hE, hr, hen, hbase⟩ <;> subst hbase <;>
      (rw [htr]; constructor
       · intro n hmem; simp at hmem
       · simp [List.countP_cons, isCreateCall])
  · rcases hB with ⟨hE, hsd, hn, hbase⟩ | ⟨hE, hr, hen, hbase⟩ <;> subst hbase <;>
      (rw [htr]; constructor
       · intro n hmem; simp at hmem
       · simp [List.countP_cons, isCreateCall])
  · rcases hB with ⟨hE, hsd, hn, hbase⟩ | ⟨hE, hr, hen, hbase⟩ <;> subst hbase <;>
      (rw [htr]; constructor
       · intro n hmem; simp at hmem
       · simp [List.countP_cons, isCreateCall])
  · rcases hB with ⟨hE, hsd, hn, hbase⟩ | ⟨hE, hr, hen, hbase⟩ <;> subst hbase <;>
      (rw [htr]; constructor
       · intro n hmem; simp at hmem
         exact absurd hmem (DFacts_noCreate hD n)
       · simp [List.countP_append, List.countP_cons, isCreateCall, DFacts_createCount hD])
  · rcases hB with ⟨hE, hsd, hn, hbase⟩ | ⟨hE, hr, hen, hbase⟩
    · subst hbase; rw [htr]; constructor
      · intro n hmem
        have hn0 : n = n0 := by simp at hmem; exact hmem
        subst hn0
        refine ⟨hx, ?_⟩
        intro pre post hdec
        obtain ⟨hpre, _⟩ := unique_decomp (Call.sslCreate n)
          [.listerGet id, .storeGetName id, .storeIsSoftDeleted id, .sslExists n]
          [] pre post (by simp) (by simp) (by simpa using hdec)
        rw [hpre]; simp
      · simp [List.countP_cons, isCreateCall]
    · subst hbase; rw [htr]; constructor
      · intro n hmem
        have hn0 : n = n0 := by simp at hmem; exact hmem
        subst hn0
        refine ⟨hx, ?_⟩
        intro pre post hdec
        obtain ⟨hpre, _⟩ := unique_decomp (Call.sslCreate n)
          [.listerGet id, .storeGetName id, .randomName, .storeSetName id n,
            .storeIsSoftDeleted id, .sslExists n]
          [] pre post (by simp) (by simp) (by simpa using hdec)
        rw [hpre]; simp
      · simp [List.countP_cons, isCreateCall]
  · rcases hB with ⟨hE, hsd, hn, hbase⟩ | ⟨hE, hr, hen, hbase⟩
    · subst hbase; rw [htr]; constructor
      · intro n hmem
        have hn0 : n = n0 := by
          simp at hmem
          rcases hmem with hmem | hmem
          · exact hmem
          · exact absurd hmem (OBFacts_noCreate hOB n)
        subst hn0
        refine ⟨hx, ?_⟩
        intro pre post hdec
        obtain ⟨hpre, _⟩ := unique_decomp (Call.sslCreate n)
          [.listerGet id, .storeGetName id, .storeIsSoftDeleted id, .sslExists n]
          (OB ++ [.sslGet n]) pre post (by simp)
          (by simp; exact OBFacts_noCreate hOB n) (by simpa using hdec)
        rw [hpre]; simp
      · simp [List.countP_append, List.countP_cons, isCreateCall, OBFacts_createCount hOB]
    · subst hbase; rw [htr]; constructor
      · intro n hmem
        have hn0 : n = n0 := by
          simp at hmem
          rcases hmem with hmem | hmem
          · exact hmem
          · exact absurd hmem (OBFacts_noCreate hOB n)
        subst hn0
        refine ⟨hx, ?_⟩
        intro pre post hdec
        obtain ⟨hpre, _⟩ := unique_decomp (Call.sslCreate n)
          [.listerGet id, .storeGetName id, .randomName, .storeSetName id n,
            .storeIsSoftDeleted id, .sslExists n]
          (OB ++ [.sslGet n]) pre post (by simp)
          (by simp; exact OBFacts_noCreate hOB n) (by simpa using hdec)
        rw [hpre]; simp
      · simp [List.countP_append, List.countP_cons, isCreateCall, OBFacts_createCount hOB]
  · rcases hB with ⟨hE, hsd, hn, hbase⟩ | ⟨hE, hr, hen, hbase⟩
    · subst hbase; rw [htr]; constructor
      · intro n hmem
        have hn0 : n = n0 := by
          simp at hmem
          rcases hmem with hmem | hmem
          · exact hmem
          · exact absurd hmem (OBFacts_noCreate hOB n)
        subst hn0
        refine ⟨hx, ?_⟩
        intro pre post hdec
        obtain ⟨hpre, _⟩ := unique_decomp (Call.sslCreate n)
          [.listerGet id, .storeGetName id, .storeIsSoftDeleted id, .sslExists n]
          (OB ++ [.sslGet n, .clientUpdate mc.ns mc.name]) pre post (by simp)
          (by simp; exact OBFacts_noCreate hOB n) (by simpa using hdec)
        rw [hpre]; simp
      · simp [List.countP_append, List.countP_cons, isCreateCall, OBFacts_createCount hOB]
    · subst hbase; rw [htr]; constructor
      · intro n hmem
        have hn0 : n = n0 := by
          simp at hmem
          rcases hmem with hmem | hmem
          · exact hmem
          · exact absurd hmem (OBFacts_noCreate hOB n)
        subst hn0
        refine ⟨hx, ?_⟩
        intro pre post hdec
        obtain ⟨hpre, _⟩ := unique_decomp (Call.sslCreate n)
          [.listerGet id, .storeGetName id, .randomName, .storeSetName id n,
            .storeIsSoftDeleted id, .sslExists n]
          (OB ++ [.sslGet n, .clientUpdate mc.ns mc.name]) pre post (by simp)
          (by simp; exact OBFacts_noCreate hOB n) (by simpa using hdec)
        rw [hpre]; simp
      · simp [List.countP_append, List.countP_cons, isCreateCall, OBFacts_createCount hOB]
  · rcases hB with ⟨hE, hsd, hn, hbase⟩ | ⟨hE, hr, hen, hbase⟩
    · subst hbase; rw [htr]; constructor
      · intro n hmem
        have hn0 : n = n0 := by
          simp at hmem
          rcases hmem with hmem | hmem | hmem
          · exact hmem
          · exact absurd hmem (OBFacts_noCreate hOB n)
          · exact absurd hmem (DFacts_noCreate hD n)
        subst hn0
        refine ⟨hx, ?_⟩
        intro pre post hdec
        obtain ⟨hpre, _⟩ := unique_decomp (Call.sslCreate n)
          [.listerGet id, .storeGetName id, .storeIsSoftDeleted id, .sslExists n]
          ((OB ++ [.sslGet n]) ++ D) pre post (by simp)
          (by simp
              exact ⟨OBFacts_noCreate hOB n, DFacts_noCreate hD n⟩)
          (by simpa using hdec)
        rw [hpre]; simp
      · simp [List.countP_append, List.countP_cons, isCreateCall, OBFacts_createCount hOB,
          DFacts_createCount hD]
    · subst hbase; rw [htr]; constructor
      · intro n hmem
        have hn0 : n = n0 := by
          simp at hmem
          rcases hmem with hmem | hmem | hmem
          · exact hmem
          · exact absurd hmem (OBFacts_noCreate hOB n)
          · exact absurd hmem (DFacts_noCreate hD n)
        subst hn0
        refine ⟨hx, ?_⟩
        intro pre post hdec
        obtain ⟨hpre, _⟩ := unique_decomp (Call.sslCreate n)
          [.listerGet id, .storeGetName id, .randomName, .storeSetName id n,
            .storeIsSoftDeleted id, .sslExists n]
          ((OB ++ [.sslGet n]) ++ D) pre post (by simp)
          (by simp
              exact ⟨OBFacts_noCreate hOB n, DFacts_noCreate hD n⟩)
          (by simpa using hdec)
        rw [hpre]; simp
      · simp [List.countP_append, List.countP_cons, isCreateCall, OBFacts_createCount hOB,
          DFacts_createCount hD]

theorem OBFacts_noStoreDelete {id : CertId} {mcrt : ManagedCertificate}
    {en enO : StateEntry} {OB : List Call} (h : OBFacts id mcrt en OB enO) :
    ∀ j, Call.storeDelete j ∉ OB := by
  rcases h with ⟨_, rfl, _⟩ | ⟨_, _, rfl, _⟩ | ⟨_, _, rfl, _⟩ <;> intro j <;> simp

theorem OBFacts_noSslDelete {id : CertId} {mcrt : ManagedCertificate}
    {en enO : StateEntry} {OB : List Call} (h : OBFacts id mcrt en OB enO) :
    ∀ m, Call.sslDelete m ∉ OB := by
  rcases h with ⟨_, rfl, _⟩ | ⟨_, _, rfl, _⟩ | ⟨_, _, rfl, _⟩ <;> intro m <;> simp

/-- Claim C9: a StateEntry is removed from the State Store only directly
after the External Resource Manager's delete for the identity's external
name completed successfully or reported the resource already absent: every
store-removal call in a pass trace is immediately preceded by the remote
delete call, and occurs only when the remote delete outcome was success or
NotFound. -/
theorem c9_remove_only_after_delete (env : Env) (st : Store) (id : CertId) :
    ∀ pre post,
      (syncManagedCertificate env st id).2.2 = pre ++ .storeDelete id :: post →
      (∃ n, pre.getLast? = some (.sslDelete n)) ∧
      ignoreNotFound env.sslDeleteResult = none := by
  intro pre post h
  have hmem : Call.storeDelete id ∈ (syncManagedCertificate env st id).2.2 := by
    rw [h]
    exact List.mem_append_right _ (List.mem_cons_self _ _)
  rcases sync_characterization env st id with
    ⟨e0, h1, h2, h3⟩ |
    ⟨e0, h1, h2, h3, h4⟩ |
    ⟨mc, e0, h1, h2, h3, h4⟩ |
    ⟨e0, en, D, dres, stAt, h1, h2, h3,
      ⟨d0, hd1, hd2, hDeq, hdres, hstAt⟩ | ⟨hd1, hDeq, hdres, hstAt⟩, hres, hst, htr⟩ |
    ⟨mc, en, D, dres, stAt, h1, h2, h3,
      ⟨d0, hd1, hd2, hDeq, hdres, hstAt⟩ | ⟨hd1, hDeq, hdres, hstAt⟩, hres, hst, htr⟩ |
    ⟨mc, n0, en, base, e0, h1, hB, hx, hres, hst, htr⟩ |
    ⟨mc, n0, en, base, e0, h1, hB, hx, hg, hres, hst, htr⟩ |
    ⟨mc, n0, en, base, c0, h1, hB, hx, hg, heq, hres, hst, htr⟩ |
    ⟨mc, n0, en, base, c0, D, dres, stAt, h1, hB, hx, hg, heq,
      ⟨d0, hd1, hd2, hDeq, hdres, hstAt⟩ | ⟨hd1, hDeq, hdres, hstAt⟩,
      hres1, hres2, hst, htr⟩ |
    ⟨mc, n0, en, base, e0, h1, hB, hx, hc, hres, hst, htr⟩ |
    ⟨mc, n0, en, base, OB, enO, e0, h1, hB, hx, hc, hOB, hg, hres, hst, htr⟩ |
    ⟨mc, n0, en, base, OB, enO, c0, h1, hB, hx, hc, hOB, hg, heq, hres, hst, htr⟩ |
    ⟨mc, n0, en, base, OB, enO, c0, D, dres, stAt, h1, hB, hx, hc, hOB, hg, heq,
      ⟨d0, hd1, hd2, hDeq, hdres, hstAt⟩ | ⟨hd1, hDeq, hdres, hstAt⟩,
      hres1, hres2, hst, htr⟩
  · rw [h3] at hmem; simp at hmem
  · rw [h4] at hmem; simp at hmem
  · rw [h4] at hmem; simp at hmem
  · subst hDeq; rw [htr] at hmem; simp at hmem
  · subst hDeq
    rw [htr] at h
    obtain ⟨hpre, _⟩ := unique_decomp (Call.storeDelete id)
      [.listerGet id, .storeGetName id, .storeSetSoftDeleted id,
        .sslDelete en.sslCertificateName]
      [] pre post (by simp) (by simp) (by simpa using h)
    rw [hpre]
    exact ⟨⟨en.sslCertificateName, by simp⟩, hd1⟩
  · subst hDeq; rw [htr] at hmem; simp at hmem
  · subst hDeq
    rw [htr] at h
    obtain ⟨hpre, _⟩ := unique_decomp (Call.storeDelete id)
      [.listerGet id, .storeGetName id, .storeIsSoftDeleted id, .storeSetSoftDeleted id,
        .sslDelete en.sslCertificateName]
      [] pre post (by simp) (by simp) (by simpa using h)
    rw [hpre]
    exact ⟨⟨en.sslCertificateName, by simp⟩, hd1⟩
  · rcases hB with ⟨hE, hsd, hn, hbase⟩ | ⟨hE, hr, hen, hbase⟩ <;> subst hbase <;>
      (rw [htr] at hmem; simp at hmem)
  · rcases hB with ⟨hE, hsd, hn, hbase⟩ | ⟨hE, hr, hen, hbase⟩ <;> subst hbase <;>
      (rw [htr] at hmem; simp at hmem)
  · rcases hB with ⟨hE, hsd, hn, hbase⟩ | ⟨hE, hr, hen, hbase⟩ <;> subst hbase <;>
      (rw [htr] at hmem; simp at hmem)
  · subst hDeq
    rcases hB with ⟨hE, hsd, hn, hbase⟩ | ⟨hE, hr, hen, hbase⟩ <;> subst hbase <;>
      (rw [htr] at hmem; simp at hmem)
  · subst hDeq
    rcases hB with ⟨hE, hsd, hn, hbase⟩ | ⟨hE, hr, hen, hbase⟩
    · subst hbase
      rw [htr] at h
      obtain ⟨hpre, _⟩ := unique_decomp (Call.storeDelete id)
        [.listerGet id, .storeGetName id, .storeIsSoftDeleted id, .sslExists n0,
          .sslGet n0, .storeSetSoftDeleted id, .sslDelete n0]
        [] pre post (by simp) (by simp) (by simpa using h)
      rw [hpre]
      exact ⟨⟨n0, by simp⟩, hd1⟩
    · subst hbase
      rw [htr] at h
      obtain ⟨hpre, _⟩ := unique_decomp (Call.storeDelete id)
        [.listerGet id, .storeGetName id, .randomName, .storeSetName id n0,
          .storeIsSoftDeleted id, .sslExists n0, .sslGet n0, .storeSetSoftDeleted id,
          .sslDelete n0]
        [] pre post (by simp) (by simp) (by simpa using h)
      rw [hpre]
      exact ⟨⟨n0, by simp⟩, hd1⟩
  · rcases hB with ⟨hE, hsd, hn, hbase⟩ | ⟨hE, hr, hen, hbase⟩ <;> subst hbase <;>
      (rw [htr] at hmem; simp at hmem)
  · rcases hB with ⟨hE, hsd, hn, hbase⟩ | ⟨hE, hr, hen, hbase⟩ <;> subst hbase <;>
      (rw [htr] at hmem; simp at hmem; exact absurd hmem (OBFacts_noStoreDelete hOB id))
  · rcases hB with ⟨hE, hsd, hn, hbase⟩ | ⟨hE, hr, hen, hbase⟩ <;> subst hbase <;>
      (rw [htr] at hmem; simp at hmem; exact absurd hmem (OBFacts_noStoreDelete hOB id))
  · subst hDeq
    rcases hB with ⟨hE, hsd, hn, hbase⟩ | ⟨hE, hr, hen, hbase⟩ <;> subst hbase <;>
      (rw [htr] at hmem; simp at hmem; exact absurd hmem (OBFacts_noStoreDelete hOB id))
  · subst hDeq
    rcases hB with ⟨hE, hsd, hn, hbase⟩ | ⟨hE, hr, hen, hbase⟩
    · subst hbase
      rw [htr] at h
      obtain ⟨hpre, _⟩ := unique_decomp (Call.storeDelete id)
        ((([.listerGet id, .storeGetName id, .storeIsSoftDeleted id, .sslExists n0,
            .sslCreate n0] ++ OB) ++
          [Call.sslGet n0, Call.storeSetSoftDeleted id]) ++ [Call.sslDelete n0])
        [] pre post
        (by simp
            exact OBFacts_noStoreDelete hOB id)
        (by simp) (by simpa using h)
      rw [hpre]
      refine ⟨⟨n0, ?_⟩, hd1⟩
      rw [List.getLast?_append] <;> simp
    · subst hbase
      rw [htr] at h
      obtain ⟨hpre, _⟩ := unique_decomp (Call.storeDelete id)
        ((([.listerGet id, .storeGetName id, .randomName, .storeSetName id n0,
            .storeIsSoftDeleted id, .sslExists n0, .sslCreate n0] ++ OB) ++
          [Call.sslGet n0, Call.storeSetSoftDeleted id]) ++ [Call.sslDelete n0])
        [] pre post
        (by simp
            exact OBFacts_noStoreDelete hOB id)
        (by simp) (by simpa using h)
      rw [hpre]
      refine ⟨⟨n0, ?_⟩, hd1⟩
      rw [List.getLast?_append] <;> simp

/-- The `softDeleted` flag of an identity, `false` when untracked. -/
def flagSoftDeleted (st : Store) (id : CertId) : Bool :=
  match st id with
  | some e => e.softDeleted
  | none => false

theorem replay_append (st : Store) (l1 l2 : List Call) :
    replayStore st (l1 ++ l2) = replayStore (replayStore st l1) l2 := by
  simp [replayStore, List.foldl_append]

theorem flag_after_setSoft {st' : Store} {id : CertId} {e : StateEntry}
    (h : st' id = some e) :
    flagSoftDeleted ((stateSetSoftDeleted st' id).2) id = true := by
  simp [stateSetSoftDeleted, h, flagSoftDeleted]

theorem OBFacts_replay {id : CertId} {mcrt : ManagedCertificate} {en enO : StateEntry}
    {OB : List Call} (h : OBFacts id mcrt en OB enO) :
    ∀ stX : Store, stX id = some en → (replayStore stX OB) id = some enO := by
  rcases h with ⟨_, rfl, rfl⟩ | ⟨_, _, rfl, rfl⟩ | ⟨_, _, rfl, henO⟩ <;> intro stX hX
  · simp [replayStore, List.foldl_cons, List.foldl_nil, applyCall, hX]
  · simp [replayStore, List.foldl_cons, List.foldl_nil, applyCall, hX]
  · simp [replayStore, List.foldl_cons, List.foldl_nil, applyCall,
      stateSetSslCertificateCreationReported, hX, henO]

theorem DFacts_shape {env : Env} {id : CertId} {n : String} {en : StateEntry}
    {D : List Call} {dres : Option Err} {stAt : Option StateEntry}
    (h : DFacts env id n en D dres stAt) :
    ∃ Dt, D = .storeSetSoftDeleted id :: .sslDelete n :: Dt ∧
      (∀ m, Call.sslDelete m ∉ Dt) := by
  rcases h with ⟨d, _, _, rfl, _, _⟩ | ⟨_, rfl, _, _⟩
  · exact ⟨[], rfl, by simp⟩
  · exact ⟨[.storeDelete id], rfl, by simp⟩

theorem replay_get_setSoft (S : Store) (id : CertId) (m : String) :
    replayStore S [.sslGet m, .storeSetSoftDeleted id] = (stateSetSoftDeleted S id).2 := by
  simp [replayStore, List.foldl_cons, List.foldl_nil, applyCall]

/-- Claim C10: on every deletion path of `Sync.ManagedCertificate`
(finalize-deletion, soft-delete and drift remediation alike), the
`softDeleted` flag is persisted on the identity's StateEntry immediately
before the remote delete is issued (the call preceding any remote delete
is the flag write, and the replayed store at that point has the flag set);
if the remote delete then fails, the pass returns the error while the
entry remains present and marked soft-deleted; and a following pass that
still finds the desired resource resumes cleanup through the soft-delete
branch, performing the delete sequence and never a create. -/
theorem c10_soft_delete_persisted_first (env : Env) (st : Store) (id : CertId) :
    (∀ n pre post,
      (syncManagedCertificate env st id).2.2 = pre ++ .sslDelete n :: post →
      pre.getLast? = some (.storeSetSoftDeleted id) ∧
      flagSoftDeleted (replayStore st pre) id = true) ∧
    (∀ en n e, st id = some en → env.sslDeleteResult = some e → isNotFound e = false →
      (deleteSslCertificate env st id n).1 = some e ∧
      (deleteSslCertificate env st id n).2.1 id =
        some { en with softDeleted := true }) ∧
    (∀ n e, env.sslDeleteResult = some e → isNotFound e = false →
      .sslDelete n ∈ (syncManagedCertificate env st id).2.2 →
      flagSoftDeleted ((syncManagedCertificate env st id).2.1) id = true) ∧
    (∀ env2 mcrt2 en, env2.listerGetResult = .ok mcrt2 → st id = some en →
      en.softDeleted = true →
      syncManagedCertificate env2 st id =
        ((deleteSslCertificate env2 st id en.sslCertificateName).1,
         (deleteSslCertificate env2 st id en.sslCertificateName).2.1,
         ([.listerGet id, .storeGetName id] ++ [.storeIsSoftDeleted id]) ++
           (deleteSslCertificate env2 st id en.sslCertificateName).2.2) ∧
      ∀ m, .sslCreate m ∉ (syncManagedCertificate env2 st id).2.2) := by
  refine ⟨?_, ?_, ?_, ?_⟩
  · -- flag written immediately before every remote delete
    intro n pre post h
    have hmem : Call.sslDelete n ∈ (syncManagedCertificate env st id).2.2 := by
      rw [h]
      exact List.mem_append_right _ (List.mem_cons_self _ _)
    rcases sync_characterization env st id with
      ⟨e0, h1, h2, h3⟩ |
      ⟨e0, h1, h2, h3, h4⟩ |
      ⟨mc, e0, h1, h2, h3, h4⟩ |
      ⟨e0, en, D, dres, stAt, h1, h2, h3, hD, hres, hst, htr⟩ |
      ⟨mc, en, D, dres, stAt, h1, h2, h3, hD, hres, hst, htr⟩ |
      ⟨mc, n0, en, base, e0, h1, hB, hx, hres, hst, htr⟩ |
      ⟨mc, n0, en, base, e0, h1, hB, hx, hg, hres, hst, htr⟩ |
      ⟨mc, n0, en, base, c0, h1, hB, hx, hg, heq, hres, hst, htr⟩ |
      ⟨mc, n0, en, base, c0, D, dres, stAt, h1, hB, hx, hg, heq, hD, hres1, hres2,
        hst, htr⟩ |
      ⟨mc, n0, en, base, e0, h1, hB, hx, hc, hres, hst, htr⟩ |
      ⟨mc, n0, en, base, OB, enO, e0, h1, hB, hx, hc, hOB, hg, hres, hst, htr⟩ |
      ⟨mc, n0, en, base, OB, enO, c0, h1, hB, hx, hc, hOB, hg, heq, hres, hst, htr⟩ |
      ⟨mc, n0, en, base, OB, enO, c0, D, dres, stAt, h1, hB, hx, hc, hOB, hg, heq, hD,
        hres1, hres2, hst, htr⟩
    · rw [h3] at hmem; simp at hmem
    · rw [h4] at hmem; simp at hmem
    · rw [h4] at hmem; simp at hmem
    · obtain ⟨Dt, hDeq, hDt⟩ := DFacts_shape hD
      subst hDeq
      have hn : n = en.sslCertificateName := by
        rw [htr] at hmem; simp at hmem
        rcases hmem with hmem | hmem
        · exact hmem
        · exact absurd hmem (hDt n)
      subst hn
      rw [htr] at h
      obtain ⟨hpre, _⟩ := unique_decomp (Call.sslDelete en.sslCertificateName)
        [.listerGet id, .storeGetName id, .storeSetSoftDeleted id]
        Dt pre post (by simp) (hDt _) (by simpa using h)
      rw [hpre]
      refine ⟨by simp, ?_⟩
      have hrep : replayStore st
          [.listerGet id, .storeGetName id, .storeSetSoftDeleted id] =
          (stateSetSoftDeleted st id).2 := by
        simp [replayStore, List.foldl_cons, List.foldl_nil, applyCall]
      rw [hrep]
      exact flag_after_setSoft h3
    · obtain ⟨Dt, hDeq, hDt⟩ := DFacts_shape hD
      subst hDeq
      have hn : n = en.sslCertificateName := by
        rw [htr] at hmem; simp at hmem
        rcases hmem with hmem | hmem
        · exact hmem
        · exact absurd hmem (hDt n)
      subst hn
      rw [htr] at h
      obtain ⟨hpre, _⟩ := unique_decomp (Call.sslDelete en.sslCertificateName)
        [.listerGet id, .storeGetName id, .storeIsSoftDeleted id, .storeSetSoftDeleted id]
        Dt pre post (by simp) (hDt _) (by simpa using h)
      rw [hpre]
      refine ⟨by simp, ?_⟩
      have hrep : replayStore st
          [.listerGet id, .storeGetName id, .storeIsSoftDeleted id,
            .storeSetSoftDeleted id] =
          (stateSetSoftDeleted st id).2 := by
        simp [replayStore, List.foldl_cons, List.foldl_nil, applyCall]
      rw [hrep]
      exact flag_after_setSoft h2
    · rcases hB with ⟨hE, hsd, hn, hbase⟩ | ⟨hE, hr, hen, hbase⟩ <;> subst hbase <;>
        (rw [htr] at hmem; simp at hmem)
    · rcases hB with ⟨hE, hsd, hn, hbase⟩ | ⟨hE, hr, hen, hbase⟩ <;> subst hbase <;>
        (rw [htr] at hmem; simp at hmem)
    · rcases hB with ⟨hE, hsd, hn, hbase⟩ | ⟨hE, hr, hen, hbase⟩ <;> subst hbase <;>
        (rw [htr] at hmem; simp at hmem)
    · obtain ⟨Dt, hDeq, hDt⟩ := DFacts_shape hD
      subst hDeq
      rcases hB with ⟨hE, hsd, hn, hbase⟩ | ⟨hE, hr, hen, hbase⟩
      · subst hbase
        have hn2 : n = n0 := by
          rw [htr] at hmem; simp at hmem
          rcases hmem with hmem | hmem
          · exact hmem
          · exact absurd hmem (hDt n)
        subst hn2
        rw [htr] at h
        obtain ⟨hpre, _⟩ := unique_decomp (Call.sslDelete n)
          [.listerGet id, .storeGetName id, .storeIsSoftDeleted id, .sslExists n,
            .sslGet n, .storeSetSoftDeleted id]
          Dt pre post (by simp) (hDt _) (by simpa using h)
        rw [hpre]
        refine ⟨by simp, ?_⟩
        have hrep : replayStore st
            [.listerGet id, .storeGetName id, .storeIsSoftDeleted id, .sslExists n,
              .sslGet n, .storeSetSoftDeleted id] =
            (stateSetSoftDeleted st id).2 := by
          simp [replayStore, List.foldl_cons, List.foldl_nil, applyCall]
        rw [hrep]
        exact flag_after_setSoft hE
      · subst hbase
        have hn2 : n = n0 := by
          rw [htr] at hmem; simp at hmem
          rcases hmem with hmem | hmem
          · exact hmem
          · exact absurd hmem (hDt n)
        subst hn2
        rw [htr] at h
        obtain ⟨hpre, _⟩ := unique_decomp (Call.sslDelete n)
          [.listerGet id, .storeGetName id, .randomName, .storeSetName id n,
            .storeIsSoftDeleted id, .sslExists n, .sslGet n, .storeSetSoftDeleted id]
          Dt pre post (by simp) (hDt _) (by simpa using h)
        rw [hpre]
        refine ⟨by simp, ?_⟩
        have hrep : replayStore st
            [.listerGet id, .storeGetName id, .randomName, .storeSetName id n,
              .storeIsSoftDeleted id, .sslExists n, .sslGet n, .storeSetSoftDeleted id] =
            (stateSetSoftDeleted (stateSetSslCertificateName st id n) id).2 := by
          simp [replayStore, List.foldl_cons, List.foldl_nil, applyCall]
        rw [hrep]
        exact flag_after_setSoft (setName_fresh st id n hE)
    · rcases hB with ⟨hE, hsd, hn, hbase⟩ | ⟨hE, hr, hen, hbase⟩ <;> subst hbase <;>
        (rw [htr] at hmem; simp at hmem)
    · rcases hB with ⟨hE, hsd, hn, hbase⟩ | ⟨hE, hr, hen, hbase⟩ <;> subst hbase <;>
        (rw [htr] at hmem; simp at hmem; exact absurd hmem (OBFacts_noSslDelete hOB n))
    · rcases hB with ⟨hE, hsd, hn, hbase⟩ | ⟨hE, hr, hen, hbase⟩ <;> subst hbase <;>
        (rw [htr] at hmem; simp at hmem; exact absurd hmem (OBFacts_noSslDelete hOB n))
    · obtain ⟨Dt, hDeq, hDt⟩ := DFacts_shape hD
      subst hDeq
      rcases hB with ⟨hE, hsd, hn, hbase⟩ | ⟨hE, hr, hen, hbase⟩
      · subst hbase
        have hn2 : n = n0 := by
          rw [htr] at hmem; simp at hmem
          rcases hmem with hmem | hmem | hmem
          · exact absurd hmem (OBFacts_noSslDelete hOB n)
          · exact hmem
          · exact absurd hmem (hDt n)
        subst hn2
        rw [htr] at h
        obtain ⟨hpre, _⟩ := unique_decomp (Call.sslDelete n)
          ((([.listerGet id, .storeGetName id, .storeIsSoftDeleted id, .sslExists n,
              .sslCreate n] ++ OB)) ++ [Call.sslGet n, Call.storeSetSoftDeleted id])
          Dt pre post
          (by simp
              exact OBFacts_noSslDelete hOB n)
          (hDt _) (by simpa using h)
        rw [hpre]
        constructor
        · rw [List.getLast?_append] <;> simp
        · rw [replay_append, replay_get_setSoft]
          refine flag_after_setSoft (OBFacts_replay hOB _ ?_)
          simp [replayStore, List.foldl_cons, List.foldl_nil, applyCall, hE]
      · subst hbase
        have hn2 : n = n0 := by
          rw [htr] at hmem; simp at hmem
          rcases hmem with hmem | hmem | hmem
          · exact absurd hmem (OBFacts_noSslDelete hOB n)
          · exact hmem
          · exact absurd hmem (hDt n)
        subst hn2
        rw [htr] at h
        obtain ⟨hpre, _⟩ := unique_decomp (Call.sslDelete n)
          ((([.listerGet id, .storeGetName id, .randomName, .storeSetName id n,
              .storeIsSoftDeleted id, .sslExists n, .sslCreate n] ++ OB)) ++
            [Call.sslGet n, Call.storeSetSoftDeleted id])
          Dt pre post
          (by simp
              exact OBFacts_noSslDelete hOB n)
          (hDt _) (by simpa using h)
        rw [hpre]
        constructor
        · rw [List.getLast?_append] <;> simp
        · rw [replay_append, replay_get_setSoft]
          refine flag_after_setSoft (OBFacts_replay hOB _ ?_)
          have hfresh := setName_fresh st id n hE
          simp [replayStore, List.foldl_cons, List.foldl_nil, applyCall, hfresh]
          exact hen.symm
  · -- a failing remote delete leaves the entry marked soft-deleted
    intro en n e hE hd hnf
    rw [delete_err env st id n en e hE hd hnf]
    simp
  · -- pass-level: failing remote delete leaves the final store marked
    intro n e hd hnf hmem
    rcases sync_characterization env st id with
      ⟨e0, h1, h2, h3⟩ |
      ⟨e0, h1, h2, h3, h4⟩ |
      ⟨mc, e0, h1, h2, h3, h4⟩ |
      ⟨e0, en, D, dres, stAt, h1, h2, h3,
        ⟨d0, hd1, hd2, hDeq, hdres, hstAt⟩ | ⟨hd1, hDeq, hdres, hstAt⟩, hres, hst, htr⟩ |
      ⟨mc, en, D, dres, stAt, h1, h2, h3,
        ⟨d0, hd1, hd2, hDeq, hdres, hstAt⟩ | ⟨hd1, hDeq, hdres, hstAt⟩, hres, hst, htr⟩ |
      ⟨mc, n0, en, base, e0, h1, hB, hx, hres, hst, htr⟩ |
      ⟨mc, n0, en, base, e0, h1, hB, hx, hg, hres, hst, htr⟩ |
      ⟨mc, n0, en, base, c0, h1, hB, hx, hg, heq, hres, hst, htr⟩ |
      ⟨mc, n0, en, base, c0, D, dres, stAt, h1, hB, hx, hg, heq,
        ⟨d0, hd1, hd2, hDeq, hdres, hstAt⟩ | ⟨hd1, hDeq, hdres, hstAt⟩,
        hres1, hres2, hst, htr⟩ |
      ⟨mc, n0, en, base, e0, h1, hB, hx, hc, hres, hst, htr⟩ |
      ⟨mc, n0, en, base, OB, enO, e0, h1, hB, hx, hc, hOB, hg, hres, hst, htr⟩ |
      ⟨mc, n0, en, base, OB, enO, c0, h1, hB, hx, hc, hOB, hg, heq, hres, hst, htr⟩ |
      ⟨mc, n0, en, base, OB, enO, c0, D, dres, stAt, h1, hB, hx, hc, hOB, hg, heq,
        ⟨d0, hd1, hd2, hDeq, hdres, hstAt⟩ | ⟨hd1, hDeq, hdres, hstAt⟩,
        hres1, hres2, hst, htr⟩
    · rw [h3] at hmem; simp at hmem
    · rw [h4] at hmem; simp at hmem
    · rw [h4] at hmem; simp at hmem
    · simp [flagSoftDeleted, hst, hstAt]
    · rw [hd] at hd1; simp [ignoreNotFound, hnf] at hd1
    · simp [flagSoftDeleted, hst, hstAt]
    · rw [hd] at hd1; simp [ignoreNotFound, hnf] at hd1
    · rcases hB with ⟨hE, hsd, hn, hbase⟩ | ⟨hE, hr, hen, hbase⟩ <;> subst hbase <;>
        (rw [htr] at hmem; simp at hmem)
    · rcases hB with ⟨hE, hsd, hn, hbase⟩ | ⟨hE, hr, hen, hbase⟩ <;> subst hbase <;>
        (rw [htr] at hmem; simp at hmem)
    · rcases hB with ⟨hE, hsd, hn, hbase⟩ | ⟨hE, hr, hen, hbase⟩ <;> subst hbase <;>
        (rw [htr] at hmem; simp at hmem)
    · simp [flagSoftDeleted, hst, hstAt]
    · rw [hd] at hd1; simp [ignoreNotFound, hnf] at hd1
    · rcases hB with ⟨hE, hsd, hn, hbase⟩ | ⟨hE, hr, hen, hbase⟩ <;> subst hbase <;>
        (rw [htr] at hmem; simp at hmem)
    · rcases hB with ⟨hE, hsd, hn, hbase⟩ | ⟨hE, hr, hen, hbase⟩ <;> subst hbase <;>
        (rw [htr] at hmem; simp at hmem; exact absurd hmem (OBFacts_noSslDelete hOB n))
    · rcases hB with ⟨hE, hsd, hn, hbase⟩ | ⟨hE, hr, hen, hbase⟩ <;> subst hbase <;>
        (rw [htr] at hmem; simp at hmem; exact absurd hmem (OBFacts_noSslDelete hOB n))
    · simp [flagSoftDeleted, hst, hstAt]
    · rw [hd] at hd1; simp [ignoreNotFound, hnf] at hd1
  · -- a later pass with the flag set resumes through the soft-delete branch
    intro env2 mcrt2 en h1 h2 h3
    have hs := sync_soft env2 st id mcrt2 en
      (deleteSslCertificate env2 st id en.sslCertificateName).1
      (deleteSslCertificate env2 st id en.sslCertificateName).2.1
      (deleteSslCertificate env2 st id en.sslCertificateName).2.2
      h1 h2 h3 rfl
    refine ⟨hs, ?_⟩
    intro m
    rw [hs]
    rcases delete_trace_cases env2 st id en.sslCertificateName with hc | ⟨hc, _⟩ | ⟨hc, _⟩ <;>
      rw [hc] <;> simp

/-- Claim C3: whenever the Drift Comparator reports the desired and fetched
resources not equal — regardless of whether the identity was already
tracked at the start of the pass or the pass freshly generated and
persisted its name — the pass deletes the external resource, removes the
identity's StateEntry entirely, returns the distinguished
`ErrSslCertificateOutOfSyncGotDeleted` outcome, ends the pass at the store
removal (no recreation in the same pass), and never updates the desired
resource's status. -/
theorem c3_drift_remediation (env : Env) (st : Store) (id : CertId)
    (mcrt : ManagedCertificate) (c : SslCertificate) (ex : Bool) (n : String)
    (h1 : env.listerGetResult = .ok mcrt)
    (hB : (∃ en, st id = some en ∧ en.softDeleted = false ∧
            n = en.sslCertificateName) ∨
          (st id = none ∧ env.randomNameResult = .ok n))
    (hx : env.sslExistsResult = .ok ex)
    (hcx : ex = false → env.sslCreateResult = none)
    (hg : env.sslGetResult = .ok c) (heq : certificatesEqual mcrt c = false)
    (hI : ignoreNotFound env.sslDeleteResult = none) :
    (syncManagedCertificate env st id).1 = some .sslCertificateOutOfSyncGotDeleted ∧
    (syncManagedCertificate env st id).2.1 id = none ∧
    .sslDelete n ∈ (syncManagedCertificate env st id).2.2 ∧
    (syncManagedCertificate env st id).2.2.getLast? = some (.storeDelete id) ∧
    ∀ a b, .clientUpdate a b ∉ (syncManagedCertificate env st id).2.2 := by
  rcases hB with ⟨en, hE, hsd, hn⟩ | ⟨hE, hr⟩
  · subst hn
    cases ex with
    | true =>
      have hdel := delete_ok env st id en.sslCertificateName en hE hI
      have hens := ens_true_driftOk env st en.sslCertificateName id mcrt c _ _ hx hg heq hdel
      rw [sync_normal_hit_err env st id mcrt en _ _ _ h1 hE hsd hens]
      exact ⟨rfl, by simp [stateDelete], by simp, by simp, by simp⟩
    | false =>
      have hc := hcx rfl
      cases hexcl : en.excludedFromSLO with
      | true =>
        have ho := observe_excluded st id mcrt en hE hexcl
        have hdel := delete_ok env st id en.sslCertificateName en hE hI
        have hens := ens_false_driftOk env st en.sslCertificateName id mcrt c _ _ _ _
          hx hc ho hg heq hdel
        rw [sync_normal_hit_err env st id mcrt en _ _ _ h1 hE hsd hens]
        exact ⟨rfl, by simp [stateDelete], by simp, by simp, by simp⟩
      | false =>
        cases hrep : en.sslCertificateCreationReported with
        | true =>
          have ho := observe_reported st id mcrt en hE hexcl hrep
          have hdel := delete_ok env st id en.sslCertificateName en hE hI
          have hens := ens_false_driftOk env st en.sslCertificateName id mcrt c _ _ _ _
            hx hc ho hg heq hdel
          rw [sync_normal_hit_err env st id mcrt en _ _ _ h1 hE hsd hens]
          exact ⟨rfl, by simp [stateDelete], by simp, by simp, by simp⟩
        | false =>
          have ho := observe_fresh st id mcrt en hE hexcl hrep
          have hdel := delete_ok env
            (fun j => if j = id then some { en with sslCertificateCreationReported := true }
              else st j)
            id en.sslCertificateName { en with sslCertificateCreationReported := true }
            (by simp) hI
          have hens := ens_false_driftOk env st en.sslCertificateName id mcrt c _ _ _ _
            hx hc ho hg heq hdel
          rw [sync_normal_hit_err env st id mcrt en _ _ _ h1 hE hsd hens]
          exact ⟨rfl, by simp [stateDelete], by simp, by simp, by simp⟩
  · have hEF := setName_fresh st id n hE
    cases ex with
    | true =>
      have hdel := delete_ok env (stateSetSslCertificateName st id n) id n
        { sslCertificateName := n, softDeleted := false, excludedFromSLO := false,
          sslCertificateCreationReported := false } hEF hI
      have hens := ens_true_driftOk env (stateSetSslCertificateName st id n) n id mcrt c
        _ _ hx hg heq hdel
      rw [sync_normal_miss_err env st id mcrt n _ _ _ h1 hE hr hens]
      exact ⟨rfl, by simp [stateDelete], by simp, by simp, by simp⟩
    | false =>
      have hc := hcx rfl
      have ho := observe_fresh (stateSetSslCertificateName st id n) id mcrt
        { sslCertificateName := n, softDeleted := false, excludedFromSLO := false,
          sslCertificateCreationReported := false } hEF rfl rfl
      have hdel := delete_ok env
        (fun j => if j = id then
          some { sslCertificateName := n, softDeleted := false, excludedFromSLO := false,
                 sslCertificateCreationReported := true }
          else (stateSetSslCertificateName st id n) j)
        id n
        { sslCertificateName := n, softDeleted := false, excludedFromSLO := false,
          sslCertificateCreationReported := true }
        (by simp) hI
      have hens := ens_false_driftOk env (stateSetSslCertificateName st id n) n id mcrt c
        _ _ _ _ hx hc ho hg heq hdel
      rw [sync_normal_miss_err env st id mcrt n _ _ _ h1 hE hr hens]
      exact ⟨rfl, by simp [stateDelete], by simp, by simp, by simp⟩

/-- Claim C4: when the desired resource is absent and the State Store has
no entry for the identity, the pass returns success, leaves the store
untouched, and its trace contains no External Resource Manager call and
no store mutation. -/
theorem c4_absent_untracked_noop (env : Env) (st : Store) (id : CertId) (e : Err)
    (he : env.listerGetResult = .error e) (hn : isNotFound e = true)
    (h : st id = none) :
    syncManagedCertificate env st id = (none, st, [.listerGet id, .storeGetName id]) ∧
    ∀ c ∈ (syncManagedCertificate env st id).2.2,
      isExternalManagerCall c = false ∧ isStoreMutation c = false := by
  have hs := sync_gone_noEntry env st id e he hn h
  refine ⟨hs, ?_⟩
  rw [hs]
  intro c hc
  simp at hc
  rcases hc with rfl | rfl <;> exact ⟨rfl, rfl⟩

/-- Claim C5: `ensureSslCertificateName` is idempotent: when the State
Store already records a name, the call returns exactly that name, leaves
the store untouched and only performs the lookup; consequently, after any
successful call, every later call returns the identical name. -/
theorem c5_ensure_name_idempotent (env env2 : Env) (st st1 : Store) (id : CertId)
    (n : String) (tr1 : List Call) :
    (stateGetSslCertificateName st id = .ok n →
      ensureSslCertificateName env st id = (.ok n, st, [.storeGetName id])) ∧
    (ensureSslCertificateName env st id = (.ok n, st1, tr1) →
      ensureSslCertificateName env2 st1 id = (.ok n, st1, [.storeGetName id])) := by
  constructor
  · intro h
    unfold ensureSslCertificateName
    rw [h]
  · intro h
    rcases hE : st id with _ | en
    · rcases hr : env.randomNameResult with er | m
      · rw [ensureName_missErr env st id er hE hr] at h
        simp at h
      · rw [ensureName_missOk env st id m hE hr] at h
        simp only [Prod.mk.injEq, Except.ok.injEq] at h
        obtain ⟨hm, hst1, _⟩ := h
        subst hst1
        unfold ensureSslCertificateName
        rw [getName_setName st id m, hm]
    · rw [ensureName_hit env st id en hE] at h
      simp only [Prod.mk.injEq, Except.ok.injEq] at h
      obtain ⟨hm, hst1, _⟩ := h
      subst hst1
      have hok : stateGetSslCertificateName st id = .ok n := by
        simp [stateGetSslCertificateName, hE, hm]
      unfold ensureSslCertificateName
      rw [hok]

/-- Claim C8: on every deletion path, a NotFound outcome of the External
Resource Manager's delete is suppressed: `deleteSslCertificate` behaves
exactly as if the delete had succeeded, and each deletion path of the pass
(finalize-deletion, soft-delete, drift remediation) removes the StateEntry
and returns its normal outcome. -/
theorem c8_delete_notfound_suppressed (env : Env) (st : Store) (id : CertId)
    (hd : env.sslDeleteResult = some .notFound) :
    (∀ n, deleteSslCertificate env st id n =
      deleteSslCertificate { env with sslDeleteResult := none } st id n) ∧
    (∀ e en, env.listerGetResult = .error e → isNotFound e = true → st id = some en →
      (syncManagedCertificate env st id).1 = none ∧
      (syncManagedCertificate env st id).2.1 id = none ∧
      .storeDelete id ∈ (syncManagedCertificate env st id).2.2) ∧
    (∀ mcrt en, env.listerGetResult = .ok mcrt → st id = some en →
      en.softDeleted = true →
      (syncManagedCertificate env st id).1 = none ∧
      (syncManagedCertificate env st id).2.1 id = none) ∧
    (∀ mcrt en c, env.listerGetResult = .ok mcrt → st id = some en →
      en.softDeleted = false → env.sslExistsResult = .ok true →
      env.sslGetResult = .ok c → certificatesEqual mcrt c = false →
      (syncManagedCertificate env st id).1 = some .sslCertificateOutOfSyncGotDeleted ∧
      (syncManagedCertificate env st id).2.1 id = none) := by
  have hI : ignoreNotFound env.sslDeleteResult = none := by
    simp [hd, ignoreNotFound, isNotFound]
  refine ⟨?_, ?_, ?_, ?_⟩
  · intro n
    unfold deleteSslCertificate
    simp [hd, ignoreNotFound, isNotFound]
  · intro e en he hn hE
    have hdel := delete_ok env st id en.sslCertificateName en hE hI
    rw [sync_gone_entry env st id e en _ _ _ he hn hE hdel]
    exact ⟨rfl, by simp [stateDelete], by simp⟩
  · intro mcrt en hm hE hsd
    have hdel := delete_ok env st id en.sslCertificateName en hE hI
    rw [sync_soft env st id mcrt en _ _ _ hm hE hsd hdel]
    exact ⟨rfl, by simp [stateDelete]⟩
  · intro mcrt en c hm hE hsd hx hg heq
    have hdel := delete_ok env st id en.sslCertificateName en hE hI
    have hens := ens_true_driftOk env st en.sslCertificateName id mcrt c _ _ hx hg heq hdel
    rw [sync_normal_hit_err env st id mcrt en _ _ _ hm hE hsd hens]
    exact ⟨rfl, by simp [stateDelete]⟩

theorem OBFacts_observeCount {id : CertId} {mcrt : ManagedCertificate}
    {en enO : StateEntry} {OB : List Call} (h : OBFacts id mcrt en OB enO) :
    OB.countP isObserveCall ≤ 1 ∧
    (en.excludedFromSLO = true → OB.countP isObserveCall = 0) ∧
    (en.sslCertificateCreationReported = true → OB.countP isObserveCall = 0) := by
  rcases h with ⟨hf, rfl, _⟩ | ⟨hf1, hf2, rfl, _⟩ | ⟨hf1, hf2, rfl, _⟩ <;>
    simp [List.countP_cons, isObserveCall] <;> simp_all

theorem DFacts_observeCount {env : Env} {id : CertId} {n : String} {en : StateEntry}
    {D : List Call} {dres : Option Err} {stAt : Option StateEntry}
    (h : DFacts env id n en D dres stAt) : D.countP isObserveCall = 0 := by
  rcases h with ⟨d, _, _, rfl, _, _⟩ | ⟨_, rfl, _, _⟩ <;>
    simp [List.countP_cons, isObserveCall]

theorem DFacts_noObserve {env : Env} {id : CertId} {n : String} {en : StateEntry}
    {D : List Call} {dres : Option Err} {stAt : Option StateEntry}
    (h : DFacts env id n en D dres stAt) : ∀ t, Call.observeLatency t ∉ D := by
  rcases h with ⟨d, _, _, rfl, _, _⟩ | ⟨_, rfl, _, _⟩ <;> intro t <;> simp

theorem pass_observe_count (env : Env) (st : Store) (id : CertId) :
    (syncManagedCertificate env st id).2.2.countP isObserveCall ≤ 1 ∧
    (flagReported st id = true →
      (syncManagedCertificate env st id).2.2.countP isObserveCall = 0) ∧
    (∀ en0, st id = some en0 → en0.excludedFromSLO = true →
      (syncManagedCertificate env st id).2.2.countP isObserveCall = 0) := by
  refine ⟨?_, ?_, ?_⟩ <;>
  · intros
    rcases sync_characterization env st id with
      ⟨e0, h1, h2, h3⟩ |
      ⟨e0, h1, h2, h3, h4⟩ |
      ⟨mc, e0, h1, h2, h3, h4⟩ |
      ⟨e0, en, D, dres, stAt, h1, h2, h3,
        ⟨d0, hd1, hd2, hDeq, hdres, hstAt⟩ | ⟨hd1, hDeq, hdres, hstAt⟩, hres, hst, htr⟩ |
      ⟨mc, en, D, dres, stAt, h1, h2, h3,
        ⟨d0, hd1, hd2, hDeq, hdres, hstAt⟩ | ⟨hd1, hDeq, hdres, hstAt⟩, hres, hst, htr⟩ |
      ⟨mc, n0, en, base, e0, h1, ⟨hE, hsd, hn, hbase⟩ | ⟨hE, hr, hen, hbase⟩, hx,
        hres, hst, htr⟩ |
      ⟨mc, n0, en, base, e0, h1, ⟨hE, hsd, hn, hbase⟩ | ⟨hE, hr, hen, hbase⟩, hx, hg,
        hres, hst, htr⟩ |
      ⟨mc, n0, en, base, c0, h1, ⟨hE, hsd, hn, hbase⟩ | ⟨hE, hr, hen, hbase⟩, hx, hg, heq,
        hres, hst, htr⟩ |
      ⟨mc, n0, en, base, c0, D, dres, stAt, h1, ⟨hE, hsd, hn, hbase⟩ | ⟨hE, hr, hen, hbase⟩,
        hx, hg, heq,
        ⟨d0, hd1, hd2, hDeq, hdres, hstAt⟩ | ⟨hd1, hDeq, hdres, hstAt⟩,
        hres1, hres2, hst, htr⟩ |
      ⟨mc, n0, en, base, e0, h1, ⟨hE, hsd, hn, hbase⟩ | ⟨hE, hr, hen, hbase⟩, hx, hc,
        hres, hst, htr⟩ |
      ⟨mc, n0, en, base, OB, enO, e0, h1, ⟨hE, hsd, hn, hbase⟩ | ⟨hE, hr, hen, hbase⟩,
        hx, hc,
        ⟨hf1, hOBeq, henO⟩ | ⟨hf1, hf2, hOBeq, henO⟩ | ⟨hf1, hf2, hOBeq, henO⟩, hg,
        hres, hst, htr⟩ |
      ⟨mc, n0, en, base, OB, enO, c0, h1, ⟨hE, hsd, hn, hbase⟩ | ⟨hE, hr, hen, hbase⟩,
        hx, hc,
        ⟨hf1, hOBeq, henO⟩ | ⟨hf1, hf2, hOBeq, henO⟩ | ⟨hf1, hf2, hOBeq, henO⟩, hg, heq,
        hres, hst, htr⟩ |
      ⟨mc, n0, en, base, OB, enO, c0, D, dres, stAt, h1,
        ⟨hE, hsd, hn, hbase⟩ | ⟨hE, hr, hen, hbase⟩, hx, hc,
        ⟨hf1, hOBeq, henO⟩ | ⟨hf1, hf2, hOBeq, henO⟩ | ⟨hf1, hf2, hOBeq, henO⟩, hg, heq,
        ⟨d0, hd1, hd2, hDeq, hdres, hstAt⟩ | ⟨hd1, hDeq, hdres, hstAt⟩,
        hres1, hres2, hst, htr⟩ <;>
      simp_all [flagReported, List.countP_append, List.countP_cons, isObserveCall]

theorem pass_flag_transfer (env : Env) (st : Store) (id : CertId)
    (hnd : .storeDelete id ∉ (syncManagedCertificate env st id).2.2) :
    (flagReported st id = true →
      flagReported ((syncManagedCertificate env st id).2.1) id = true) ∧
    ((syncManagedCertificate env st id).2.2.countP isObserveCall = 0 →
      flagReported ((syncManagedCertificate env st id).2.1) id = flagReported st id) ∧
    ((syncManagedCertificate env st id).2.2.countP isObserveCall = 1 →
      flagReported ((syncManagedCertificate env st id).2.1) id = true) := by
  refine ⟨?_, ?_, ?_⟩ <;>
  · intros
    rcases sync_characterization env st id with
      ⟨e0, h1, h2, h3⟩ |
      ⟨e0, h1, h2, h3, h4⟩ |
      ⟨mc, e0, h1, h2, h3, h4⟩ |
      ⟨e0, en, D, dres, stAt, h1, h2, h3,
        ⟨d0, hd1, hd2, hDeq, hdres, hstAt⟩ | ⟨hd1, hDeq, hdres, hstAt⟩, hres, hst, htr⟩ |
      ⟨mc, en, D, dres, stAt, h1, h2, h3,
        ⟨d0, hd1, hd2, hDeq, hdres, hstAt⟩ | ⟨hd1, hDeq, hdres, hstAt⟩, hres, hst, htr⟩ |
      ⟨mc, n0, en, base, e0, h1, ⟨hE, hsd, hn, hbase⟩ | ⟨hE, hr, hen, hbase⟩, hx,
        hres, hst, htr⟩ |
      ⟨mc, n0, en, base, e0, h1, ⟨hE, hsd, hn, hbase⟩ | ⟨hE, hr, hen, hbase⟩, hx, hg,
        hres, hst, htr⟩ |
      ⟨mc, n0, en, base, c0, h1, ⟨hE, hsd, hn, hbase⟩ | ⟨hE, hr, hen, hbase⟩, hx, hg, heq,
        hres, hst, htr⟩ |
      ⟨mc, n0, en, base, c0, D, dres, stAt, h1, ⟨hE, hsd, hn, hbase⟩ | ⟨hE, hr, hen, hbase⟩,
        hx, hg, heq,
        ⟨d0, hd1, hd2, hDeq, hdres, hstAt⟩ | ⟨hd1, hDeq, hdres, hstAt⟩,
        hres1, hres2, hst, htr⟩ |
      ⟨mc, n0, en, base, e0, h1, ⟨hE, hsd, hn, hbase⟩ | ⟨hE, hr, hen, hbase⟩, hx, hc,
        hres, hst, htr⟩ |
      ⟨mc, n0, en, base, OB, enO, e0, h1, ⟨hE, hsd, hn, hbase⟩ | ⟨hE, hr, hen, hbase⟩,
        hx, hc,
        ⟨hf1, hOBeq, henO⟩ | ⟨hf1, hf2, hOBeq, henO⟩ | ⟨hf1, hf2, hOBeq, henO⟩, hg,
        hres, hst, htr⟩ |
      ⟨mc, n0, en, base, OB, enO, c0, h1, ⟨hE, hsd, hn, hbase⟩ | ⟨hE, hr, hen, hbase⟩,
        hx, hc,
        ⟨hf1, hOBeq, henO⟩ | ⟨hf1, hf2, hOBeq, henO⟩ | ⟨hf1, hf2, hOBeq, henO⟩, hg, heq,
        hres, hst, htr⟩ |
      ⟨mc, n0, en, base, OB, enO, c0, D, dres, stAt, h1,
        ⟨hE, hsd, hn, hbase⟩ | ⟨hE, hr, hen, hbase⟩, hx, hc,
        ⟨hf1, hOBeq, henO⟩ | ⟨hf1, hf2, hOBeq, henO⟩ | ⟨hf1, hf2, hOBeq, henO⟩, hg, heq,
        ⟨d0, hd1, hd2, hDeq, hdres, hstAt⟩ | ⟨hd1, hDeq, hdres, hstAt⟩,
        hres1, hres2, hst, htr⟩ <;>
      simp_all [flagReported, List.countP_append, List.countP_cons, isObserveCall]

theorem pass_observe_adjacent (env : Env) (st : Store) (id : CertId) :
    ∀ t pre post,
      (syncManagedCertificate env st id).2.2 = pre ++ .observeLatency t :: post →
      post.head? = some (.storeSetReported id) := by
  intro t pre post h
  have hmem : Call.observeLatency t ∈ (syncManagedCertificate env st id).2.2 := by
    rw [h]
    exact List.mem_append_right _ (List.mem_cons_self _ _)
  rcases sync_characterization env st id with
    ⟨e0, h1, h2, h3⟩ |
    ⟨e0, h1, h2, h3, h4⟩ |
    ⟨mc, e0, h1, h2, h3, h4⟩ |
    ⟨e0, en, D, dres, stAt, h1, h2, h3, hD, hres, hst, htr⟩ |
    ⟨mc, en, D, dres, stAt, h1, h2, h3, hD, hres, hst, htr⟩ |
    ⟨mc, n0, en, base, e0, h1, hB, hx, hres, hst, htr⟩ |
    ⟨mc, n0, en, base, e0, h1, hB, hx, hg, hres, hst, htr⟩ |
    ⟨mc, n0, en, base, c0, h1, hB, hx, hg, heq, hres, hst, htr⟩ |
    ⟨mc, n0, en, base, c0, D, dres, stAt, h1, hB, hx, hg, heq, hD, hres1, hres2, hst, htr⟩ |
    ⟨mc, n0, en, base, e0, h1, hB, hx, hc, hres, hst, htr⟩ |
    ⟨mc, n0, en, base, OB, enO, e0, h1, hB, hx, hc,
      ⟨hf1, hOBeq, henO⟩ | ⟨hf1, hf2, hOBeq, henO⟩ | ⟨hf1, hf2, hOBeq, henO⟩, hg,
      hres, hst, htr⟩ |
    ⟨mc, n0, en, base, OB, enO, c0, h1, hB, hx, hc,
      ⟨hf1, hOBeq, henO⟩ | ⟨hf1, hf2, hOBeq, henO⟩ | ⟨hf1, hf2, hOBeq, henO⟩, hg, heq,
      hres, hst, htr⟩ |
    ⟨mc, n0, en, base, OB, enO, c0, D, dres, stAt, h1, hB, hx, hc,
      ⟨hf1, hOBeq, henO⟩ | ⟨hf1, hf2, hOBeq, henO⟩ | ⟨hf1, hf2, hOBeq, henO⟩, hg, heq,
      hD, hres1, hres2, hst, htr⟩
  · rw [h3] at hmem; simp at hmem
  · rw [h4] at hmem; simp at hmem
  · rw [h4] at hmem; simp at hmem
  · rw [htr] at hmem; simp at hmem
    exact absurd hmem (DFacts_noObserve hD t)
  · rw [htr] at hmem; simp at hmem
    exact absurd hmem (DFacts_noObserve hD t)
  · rcases hB with ⟨hE, hsd, hn, hbase⟩ | ⟨hE, hr, hen, hbase⟩ <;> subst hbase <;>
      (rw [htr] at hmem; simp at hmem)
  · rcases hB with ⟨hE, hsd, hn, hbase⟩ | ⟨hE, hr, hen, hbase⟩ <;> subst hbase <;>
      (rw [htr] at hmem; simp at hmem)
  · rcases hB with ⟨hE, hsd, hn, hbase⟩ | ⟨hE, hr, hen, hbase⟩ <;> subst hbase <;>
      (rw [htr] at hmem; simp at hmem)
  · rcases hB with ⟨hE, hsd, hn, hbase⟩ | ⟨hE, hr, hen, hbase⟩ <;> subst hbase <;>
      (rw [htr] at hmem; simp at hmem; exact absurd hmem (DFacts_noObserve hD t))
  · rcases hB with ⟨hE, hsd, hn, hbase⟩ | ⟨hE, hr, hen, hbase⟩ <;> subst hbase <;>
      (rw [htr] at hmem; simp at hmem)
  · rcases hB with ⟨hE, hsd, hn, hbase⟩ | ⟨hE, hr, hen, hbase⟩ <;> subst hbase <;>
      (subst hOBeq; rw [htr] at hmem; simp at hmem)
  · rcases hB with ⟨hE, hsd, hn, hbase⟩ | ⟨hE, hr, hen, hbase⟩ <;> subst hbase <;>
      (subst hOBeq; rw [htr] at hmem; simp at hmem)
  · subst hOBeq
    rcases hB with ⟨hE, hsd, hn, hbase⟩ | ⟨hE, hr, hen, hbase⟩
    · subst hbase
      have ht : t = mc.creationTimestamp := by
        rw [htr] at hmem; simp at hmem; exact hmem
      rw [ht] at h
      rw [htr] at h
      obtain ⟨_, hpost⟩ := unique_decomp (Call.observeLatency mc.creationTimestamp)
        [.listerGet id, .storeGetName id, .storeIsSoftDeleted id, .sslExists n0,
          .sslCreate n0, .storeIsExcluded id, .storeIsReported id]
        (.storeSetReported id :: [.sslGet n0]) pre post (by simp) (by simp)
        (by simpa using h)
      rw [hpost]
      rfl
    · subst hbase
      have ht : t = mc.creationTimestamp := by
        rw [htr] at hmem; simp at hmem; exact hmem
      rw [ht] at h
      rw [htr] at h
      obtain ⟨_, hpost⟩ := unique_decomp (Call.observeLatency mc.creationTimestamp)
        [.listerGet id, .storeGetName id, .randomName, .storeSetName id n0,
          .storeIsSoftDeleted id, .sslExists n0, .sslCreate n0, .storeIsExcluded id,
          .storeIsReported id]
        (.storeSetReported id :: [.sslGet n0]) pre post (by simp) (by simp)
        (by simpa using h)
      rw [hpost]
      rfl
  · rcases hB with ⟨hE, hsd, hn, hbase⟩ | ⟨hE, hr, hen, hbase⟩ <;> subst hbase <;>
      (subst hOBeq; rw [htr] at hmem; simp at hmem)
  · rcases hB with ⟨hE, hsd, hn, hbase⟩ | ⟨hE, hr, hen, hbase⟩ <;> subst hbase <;>
      (subst hOBeq; rw [htr] at hmem; simp at hmem)
  · subst hOBeq
    rcases hB with ⟨hE, hsd, hn, hbase⟩ | ⟨hE, hr, hen, hbase⟩
    · subst hbase
      have ht : t = mc.creationTimestamp := by
        rw [htr] at hmem; simp at hmem; exact hmem
      rw [ht] at h
      rw [htr] at h
      obtain ⟨_, hpost⟩ := unique_decomp (Call.observeLatency mc.creationTimestamp)
        [.listerGet id, .storeGetName id, .storeIsSoftDeleted id, .sslExists n0,
          .sslCreate n0, .storeIsExcluded id, .storeIsReported id]
        (.storeSetReported id :: [.sslGet n0, .clientUpdate mc.ns mc.name]) pre post
        (by simp) (by simp) (by simpa using h)
      rw [hpost]
      rfl
    · subst hbase
      have ht : t = mc.creationTimestamp := by
        rw [htr] at hmem; simp at hmem; exact hmem
      rw [ht] at h
      rw [htr] at h
      obtain ⟨_, hpost⟩ := unique_decomp (Call.observeLatency mc.creationTimestamp)
        [.listerGet id, .storeGetName id, .randomName, .storeSetName id n0,
          .storeIsSoftDeleted id, .sslExists n0, .sslCreate n0, .storeIsExcluded id,
          .storeIsReported id]
        (.storeSetReported id :: [.sslGet n0, .clientUpdate mc.ns mc.name]) pre post
        (by simp) (by simp) (by simpa using h)
      rw [hpost]
      rfl
  · rcases hB with ⟨hE, hsd, hn, hbase⟩ | ⟨hE, hr, hen, hbase⟩ <;> subst hbase <;>
      (subst hOBeq; rw [htr] at hmem; simp at hmem
       exact absurd hmem (DFacts_noObserve hD t))
  · rcases hB with ⟨hE, hsd, hn, hbase⟩ | ⟨hE, hr, hen, hbase⟩ <;> subst hbase <;>
      (subst hOBeq; rw [htr] at hmem; simp at hmem
       exact absurd hmem (DFacts_noObserve hD t))
  · subst hOBeq
    rcases hB with ⟨hE, hsd, hn, hbase⟩ | ⟨hE, hr, hen, hbase⟩
    · subst hbase
      have ht : t = mc.creationTimestamp := by
        rw [htr] at hmem; simp at hmem
        rcases hmem with hmem | hmem
        · exact hmem
        · exact absurd hmem (DFacts_noObserve hD t)
      rw [ht] at h
      rw [htr] at h
      obtain ⟨_, hpost⟩ := unique_decomp (Call.observeLatency mc.creationTimestamp)
        [.listerGet id, .storeGetName id, .storeIsSoftDeleted id, .sslExists n0,
          .sslCreate n0, .storeIsExcluded id, .storeIsReported id]
        (.storeSetReported id :: ([.sslGet n0] ++ D)) pre post
        (by simp)
        (by simp
            exact DFacts_noObserve hD mc.creationTimestamp)
        (by simpa using h)
      rw [hpost]
      rfl
    · subst hbase
      have ht : t = mc.creationTimestamp := by
        rw [htr] at hmem; simp at hmem
        rcases hmem with hmem | hmem
        · exact hmem
        · exact absurd hmem (DFacts_noObserve hD t)
      rw [ht] at h
      rw [htr] at h
      obtain ⟨_, hpost⟩ := unique_decomp (Call.observeLatency mc.creationTimestamp)
        [.listerGet id, .storeGetName id, .randomName, .storeSetName id n0,
          .storeIsSoftDeleted id, .sslExists n0, .sslCreate n0, .storeIsExcluded id,
          .storeIsReported id]
        (.storeSetReported id :: ([.sslGet n0] ++ D)) pre post
        (by simp)
        (by simp
            exact DFacts_noObserve hD mc.creationTimestamp)
        (by simpa using h)
      rw [hpost]
      rfl

theorem multipass_observe (envs : List Env) : ∀ (st : Store) (id : CertId),
    .storeDelete id ∉ (syncPasses envs st id).2 →
    (syncPasses envs st id).2.countP isObserveCall ≤ 1 ∧
    (flagReported st id = true →
      (syncPasses envs st id).2.countP isObserveCall = 0) := by
  induction envs with
  | nil =>
    intro st id _
    simp [syncPasses, List.countP_nil]
  | cons env rest ih =>
    intro st id hnd
    have hsp : syncPasses (env :: rest) st id =
        ((syncPasses rest (syncManagedCertificate env st id).2.1 id).1,
         (syncManagedCertificate env st id).2.2 ++
           (syncPasses rest (syncManagedCertificate env st id).2.1 id).2) := rfl
    rw [hsp] at hnd ⊢
    have hnd1 : Call.storeDelete id ∉ (syncManagedCertificate env st id).2.2 :=
      fun hx => hnd (List.mem_append_left _ hx)
    have hnd2 : Call.storeDelete id ∉
        (syncPasses rest (syncManagedCertificate env st id).2.1 id).2 :=
      fun hx => hnd (List.mem_append_right _ hx)
    obtain ⟨hle, hflag0, _⟩ := pass_observe_count env st id
    obtain ⟨hkeep, _, hset⟩ := pass_flag_transfer env st id hnd1
    obtain ⟨ihle, ihflag⟩ := ih (syncManagedCertificate env st id).2.1 id hnd2
    constructor
    · rw [List.countP_append]
      rcases Nat.lt_or_ge
        ((syncManagedCertificate env st id).2.2.countP isObserveCall) 1 with hc | hc
      · have hc0 := Nat.lt_one_iff.mp hc
        rw [hc0]
        simpa using ihle
      · have hc1 := Nat.le_antisymm hle hc
        rw [hc1, ihflag (hset hc1)]
    · intro hf
      rw [List.countP_append, hflag0 hf, ihflag (hkeep hf)]

/-- Claim C7: across any sequence of reconciliation passes for one
identity, the creation-latency metric is emitted at most once while the
same StateEntry exists: a single pass emits at most one observation, emits
none when the entry's `excludedFromSLO` flag is set, emits none once the
`latencyReported` flag is set, sets `latencyReported` immediately after an
emission (the next call of the trace is the flag write, and the pass ends
with the flag recorded unless the entry was cleared), and any sequence of
passes that never removes the StateEntry observes the metric at most
once in total. -/
theorem c7_latency_reported_once (env : Env) (st : Store) (id : CertId) :
    ((syncManagedCertificate env st id).2.2.countP isObserveCall ≤ 1) ∧
    (∀ en0, st id = some en0 → en0.excludedFromSLO = true →
      (syncManagedCertificate env st id).2.2.countP isObserveCall = 0) ∧
    (flagReported st id = true →
      (syncManagedCertificate env st id).2.2.countP isObserveCall = 0) ∧
    (∀ t pre post,
      (syncManagedCertificate env st id).2.2 = pre ++ .observeLatency t :: post →
      post.head? = some (.storeSetReported id)) ∧
    (.storeDelete id ∉ (syncManagedCertificate env st id).2.2 →
      (syncManagedCertificate env st id).2.2.countP isObserveCall = 1 →
      flagReported ((syncManagedCertificate env st id).2.1) id = true) ∧
    (∀ envs st0, .storeDelete id ∉ (syncPasses envs st0 id).2 →
      (syncPasses envs st0 id).2.countP isObserveCall ≤ 1) := by
  obtain ⟨h1, h2, h3⟩ := pass_observe_count env st id
  exact ⟨h1, h3, h2, pass_observe_adjacent env st id,
    fun hnd => (pass_flag_transfer env st id hnd).2.2,
    fun envs st0 hnd => (multipass_observe envs st0 id hnd).1⟩

/-! ### Evaluation witnesses at concrete inputs. -/

/-- The entry tracked for `cid` in `stTracked`. -/
def enT : StateEntry :=
  { sslCertificateName := "mcert-abc123", softDeleted := false,
    excludedFromSLO := false, sslCertificateCreationReported := false }

/-- Desired resource already deleted; remote delete reports NotFound. -/
def envNF : Env :=
  { listerGetResult := .error .notFound, randomNameResult := .ok "n1",
    sslExistsResult := .ok true, sslCreateResult := none,
    sslGetResult := .ok cert1, sslDeleteResult := some .notFound,
    clientUpdateResult := none }

/-- Desired resource already deleted; remote delete succeeds. -/
def envGoneDel : Env := { envHappy with listerGetResult := .error .notFound }

/-- Exists check fails with a backend error. -/
def envExistsErr : Env := { envHappy with sslExistsResult := .error (.backend 7) }

/-- The fetched resource drifted from the desired domains. -/
def envDrift : Env := { envHappy with sslGetResult := .ok certDrift }

/-- The remote delete fails with a backend error. -/
def envDelErr : Env := { envHappy with sslDeleteResult := some (.backend 3) }

/-- A store whose entry for `cid` is marked soft-deleted. -/
def stSoft : Store :=
  fun j => if j = cid then some { enT with softDeleted := true } else none

/-- A store whose entry for `cid` is excluded from SLO accounting. -/
def stExcl : Store :=
  fun j => if j = cid then some { enT with excludedFromSLO := true } else none

theorem c1_error_propagation_witness :
    (syncManagedCertificate envExistsErr stTracked cid).1 = some (.backend 7) ∧
    (syncManagedCertificate envExistsErr stTracked cid).2.2.getLast? =
      some (.sslExists "mcert-abc123") :=
  (c1_error_propagation envExistsErr stTracked cid).2.2.2.1 "mcert-abc123"
    (.backend 7) rfl (by decide)

theorem c2_name_recorded_before_create_witness :
    stateGetSslCertificateName
      (replayStore emptyStore
        [.listerGet cid, .storeGetName cid, .randomName,
         .storeSetName cid "mcert-abc123", .storeIsSoftDeleted cid,
         .sslExists "mcert-abc123"]) cid = .ok "mcert-abc123" :=
  c2_name_recorded_before_create envHappy emptyStore cid "mcert-abc123"
    [.listerGet cid, .storeGetName cid, .randomName,
     .storeSetName cid "mcert-abc123", .storeIsSoftDeleted cid,
     .sslExists "mcert-abc123"]
    [.storeIsExcluded cid, .storeIsReported cid, .observeLatency 5,
     .storeSetReported cid, .sslGet "mcert-abc123", .clientUpdate "default" "mcrt1"]
    (by rfl)

theorem c3_drift_remediation_witness :
    ((syncManagedCertificate envDrift stTracked cid).1 =
        some .sslCertificateOutOfSyncGotDeleted ∧
      (syncManagedCertificate envDrift stTracked cid).2.1 cid = none ∧
      .sslDelete "mcert-abc123" ∈ (syncManagedCertificate envDrift stTracked cid).2.2 ∧
      (syncManagedCertificate envDrift stTracked cid).2.2.getLast? =
        some (.storeDelete cid) ∧
      ∀ a b, .clientUpdate a b ∉ (syncManagedCertificate envDrift stTracked cid).2.2) ∧
    ((syncManagedCertificate envDrift emptyStore cid).1 =
        some .sslCertificateOutOfSyncGotDeleted ∧
      (syncManagedCertificate envDrift emptyStore cid).2.1 cid = none ∧
      .sslDelete "mcert-abc123" ∈ (syncManagedCertificate envDrift emptyStore cid).2.2 ∧
      (syncManagedCertificate envDrift emptyStore cid).2.2.getLast? =
        some (.storeDelete cid) ∧
      ∀ a b, .clientUpdate a b ∉ (syncManagedCertificate envDrift emptyStore cid).2.2) :=
  ⟨c3_drift_remediation envDrift stTracked cid mcrt1 certDrift false "mcert-abc123"
      rfl (Or.inl ⟨enT, by rfl, rfl, rfl⟩) rfl (fun _ => rfl) rfl (by decide) rfl,
   c3_drift_remediation envDrift emptyStore cid mcrt1 certDrift false "mcert-abc123"
      rfl (Or.inr ⟨rfl, rfl⟩) rfl (fun _ => rfl) rfl (by decide) rfl⟩

theorem c4_absent_untracked_noop_witness :
    syncManagedCertificate envNF emptyStore cid =
      (none, emptyStore, [.listerGet cid, .storeGetName cid]) ∧
    ∀ c ∈ (syncManagedCertificate envNF emptyStore cid).2.2,
      isExternalManagerCall c = false ∧ isStoreMutation c = false :=
  c4_absent_untracked_noop envNF emptyStore cid .notFound rfl rfl rfl

theorem c5_ensure_name_idempotent_witness :
    ensureSslCertificateName envHappy stTracked cid =
      (.ok "mcert-abc123", stTracked, [.storeGetName cid]) :=
  (c5_ensure_name_idempotent envHappy envHappy stTracked stTracked cid
    "mcert-abc123" []).1 (by rfl)

theorem c6_create_gated_by_exists_witness :
    ((syncManagedCertificate envHappy emptyStore cid).2.2.countP isCreateCall ≤ 1) ∧
    envHappy.sslExistsResult = .ok false ∧
    ([.listerGet cid, .storeGetName cid, .randomName,
      .storeSetName cid "mcert-abc123", .storeIsSoftDeleted cid,
      .sslExists "mcert-abc123"] : List Call).getLast? =
      some (.sslExists "mcert-abc123") :=
  ⟨(c6_create_gated_by_exists envHappy emptyStore cid).2,
   ((c6_create_gated_by_exists envHappy emptyStore cid).1 "mcert-abc123" (by decide)).1,
   ((c6_create_gated_by_exists envHappy emptyStore cid).1 "mcert-abc123" (by decide)).2
     [.listerGet cid, .storeGetName cid, .randomName,
      .storeSetName cid "mcert-abc123", .storeIsSoftDeleted cid,
      .sslExists "mcert-abc123"]
     [.storeIsExcluded cid, .storeIsReported cid, .observeLatency 5,
      .storeSetReported cid, .sslGet "mcert-abc123", .clientUpdate "default" "mcrt1"]
     (by rfl)⟩

theorem c7_latency_reported_once_witness :
    ((syncManagedCertificate envHappy emptyStore cid).2.2.countP isObserveCall ≤ 1) ∧
    ((syncManagedCertificate envHappy stExcl cid).2.2.countP isObserveCall = 0) ∧
    ((syncPasses [envHappy, envHappy] stTracked cid).2.countP isObserveCall ≤ 1) :=
  ⟨(c7_latency_reported_once envHappy emptyStore cid).1,
   (c7_latency_reported_once envHappy stExcl cid).2.1
     { enT with excludedFromSLO := true } (by rfl) rfl,
   (c7_latency_reported_once envHappy stTracked cid).2.2.2.2.2
     [envHappy, envHappy] stTracked (by decide)⟩

theorem c8_delete_notfound_suppressed_witness :
    (deleteSslCertificate envNF stTracked cid "mcert-abc123" =
      deleteSslCertificate { envNF with sslDeleteResult := none } stTracked cid
        "mcert-abc123") ∧
    (syncManagedCertificate envNF stTracked cid).1 = none ∧
    (syncManagedCertificate envNF stTracked cid).2.1 cid = none :=
  ⟨(c8_delete_notfound_suppressed envNF stTracked cid rfl).1 "mcert-abc123",
   ((c8_delete_notfound_suppressed envNF stTracked cid rfl).2.1 .notFound enT
     rfl rfl (by rfl)).1,
   ((c8_delete_notfound_suppressed envNF stTracked cid rfl).2.1 .notFound enT
     rfl rfl (by rfl)).2.1⟩

theorem c9_remove_only_after_delete_witness :
    (∃ n, ([.listerGet cid, .storeGetName cid, .storeSetSoftDeleted cid,
      .sslDelete "mcert-abc123"] : List Call).getLast? = some (.sslDelete n)) ∧
    ignoreNotFound envGoneDel.sslDeleteResult = none :=
  c9_remove_only_after_delete envGoneDel stTracked cid
    [.listerGet cid, .storeGetName cid, .storeSetSoftDeleted cid,
     .sslDelete "mcert-abc123"]
    [] (by rfl)

theorem c10_soft_delete_persisted_first_witness :
    (([.listerGet cid, .storeGetName cid, .storeSetSoftDeleted cid] :
        List Call).getLast? = some (.storeSetSoftDeleted cid) ∧
      flagSoftDeleted (replayStore stTracked
        [.listerGet cid, .storeGetName cid, .storeSetSoftDeleted cid]) cid = true) ∧
    ((deleteSslCertificate envDelErr stTracked cid "mcert-abc123").1 =
        some (.backend 3) ∧
      (deleteSslCertificate envDelErr stTracked cid "mcert-abc123").2.1 cid =
        some { enT with softDeleted := true }) ∧
    ∀ m, .sslCreate m ∉ (syncManagedCertificate envHappy stSoft cid).2.2 :=
  ⟨(c10_soft_delete_persisted_first envGoneDel stTracked cid).1 "mcert-abc123"
     [.listerGet cid, .storeGetName cid, .storeSetSoftDeleted cid]
     [.storeDelete cid] (by rfl),
   (c10_soft_delete_persisted_first envDelErr stTracked cid).2.1 enT
     "mcert-abc123" (.backend 3) (by rfl) rfl rfl,
   ((c10_soft_delete_persisted_first envHappy stSoft cid).2.2.2 envHappy mcrt1
     { enT with softDeleted := true } rfl (by rfl) rfl).2⟩
